import Mathlib

/-! # merch-store: the ledger core

A shallow embedding of `internal/repository/repository_impl.go` (the SQL-backed
repository) together with the records of `internal/models/models.go` and the
sentinel errors of `internal/repository/errors.go`.

Modelling decisions:

* The database is a value of type `DB` holding the three tables the SQL text
  names (`employees`, `purchases`, `transactions`) as lists of rows.  A
  statement is a function on `DB`.  `UPDATE ... WHERE id = $2` rewrites every
  row whose id matches, `SELECT ... WHERE id = $1` read through `QueryRow`
  yields the first matching row, and `Scan` on an empty result is
  `sql.ErrNoRows`.
* A transaction works on a copy of the committed database: `tx.Commit()`
  publishes the copy, every other exit runs the deferred `tx.Rollback()` and
  the committed database is the one before the call.
* Every storage call may fail.  `Env.fail` says which ones do; `Env.now` is
  the value of `time.Now()` and `Env.newID` the id the database gives to the
  inserted row.
* Go `int` is 64 bits wide.  Arithmetic done by Go (`price * quantity`) wraps
  around; arithmetic done by the database is exact, a database that refuses a
  value being one of the failures of `Env.fail`.
* `config.MerchPrices` is a parameter of `BuyMerch`.
* The handlers of `internal/handlers/handler.go` run against the interface
  `repository.Repository`, a record of state-passing functions; a handler
  returns its response, the state of the repository afterwards and the calls it
  made.  What `gin` and the validator do with a request (decode the body, check
  the `binding` tags, look a key up in the context) and what `jwt.Parse` does
  with a token are inputs of the model.  The value stored under `userID` is known
  by the integer `int(v.(float64))` yields.
* The schema of the tables is not among the sources.  The tables carry the
  columns the statements name and no constraint; where a property needs the
  column `id` of `employees` to be a key, `UniqueIDs` says so.
-/

namespace MerchStore

/-! ## Go integers -/

/-- Width of the Go type `int`. -/
def intBits : Nat := 64

/-- Smallest value of a Go `int`. -/
def minInt : Int := -(2 ^ (intBits - 1))

/-- Largest value of a Go `int`. -/
def maxInt : Int := 2 ^ (intBits - 1) - 1

/-- Reduction of an exact integer to the Go `int` that the two's complement
arithmetic of the machine produces. -/
def wrapInt (x : Int) : Int :=
  (x + 2 ^ (intBits - 1)) % 2 ^ intBits - 2 ^ (intBits - 1)

/-- Go multiplication `a * b` on `int`. -/
def goMul (a b : Int) : Int := wrapInt (a * b)

/-- The integer is a value of the Go type `int`. -/
def InIntRange (x : Int) : Prop := minInt ≤ x ∧ x ≤ maxInt

instance (x : Int) : Decidable (InIntRange x) := by
  unfold InIntRange; exact inferInstance

/-! ## Records (`models.go`) -/

/-- Row of `employees` (`models.Employee`). -/
structure Employee where
  ID : Int
  Username : String
  CoinBalance : Int
  CreatedAt : Int
  deriving DecidableEq, Repr

/-- Row of `purchases` (`models.Purchase`). -/
structure Purchase where
  ID : Int
  EmployeeID : Int
  MerchName : String
  Price : Int
  Quantity : Int
  CreatedAt : Int
  deriving DecidableEq, Repr

/-- Row of `transactions` (`models.Transaction`). -/
structure Transaction where
  ID : Int
  EmployeeID : Int
  CounterpartyID : Int
  Amount : Int
  TransactionType : String
  CreatedAt : Int
  deriving DecidableEq, Repr

/-- The committed content of the three tables. -/
structure DB where
  employees : List Employee
  purchases : List Purchase
  transactions : List Transaction
  deriving DecidableEq, Repr

/-! ## Storage calls, failures and errors -/

/-- The storage calls of the repository, as places where a failure can be
injected.  `scan i` and `next i` are the calls on the `i`-th row of a result
set. -/
inductive Step where
  | begin
  | selectBalance
  | selectToBalance
  | debit
  | credit
  | insert
  | commit
  | walletBalance
  | walletQuery
  | scan (i : Nat)
  | next (i : Nat)
  | selectEmployee
  | inventoryQuery
  deriving DecidableEq, Repr

/-- Errors a repository method returns: the three sentinels of `errors.go`,
`sql.ErrNoRows`, the error of a storage call that failed, and an error wrapped
by `fmt.Errorf("...: %w", err)`. -/
inductive Err where
  | ErrNotFound
  | ErrInsufficientFunds
  | ErrInvalidMerch
  | sqlErrNoRows
  | storage (s : Step)
  | wrapped (context : String) (cause : Err)
  deriving DecidableEq, Repr

/-- Statements sent to the database, in the order they are issued. -/
inductive Stmt where
  | begin
  | selectBalance (id : Int)
  | subBalance (amount id : Int)
  | addBalance (amount id : Int)
  | insertPurchase (employeeID : Int) (merchName : String) (price quantity now : Int)
  | insertTransaction (employeeID counterpartyID amount : Int) (kind : String) (now : Int)
  | commit
  | rollback
  deriving DecidableEq, Repr

/-- What the surroundings of one call decide: which storage calls fail, the
clock, and the id the database assigns to a new row. -/
structure Env where
  fail : Step → Bool
  now : Int
  newID : Int

/-- Surroundings in which no storage call fails. -/
def Env.ok (now newID : Int) : Env := ⟨fun _ => false, now, newID⟩

/-- Result of a mutating repository method: the returned error (`none` is
`nil`), the committed database after the call, and the statements issued. -/
structure Outcome where
  err : Option Err
  db : DB
  trace : List Stmt
  deriving DecidableEq, Repr

/-! ## SQL statements -/

/-- Statement `SELECT coin_balance FROM employees WHERE id = $1` read with
`QueryRow(...).Scan`: the balance of the first matching row. -/
def selectBalance (db : DB) (id : Int) : Option Int :=
  (db.employees.find? (fun e => decide (e.ID = id))).map (fun e => e.CoinBalance)

/-- Statement `UPDATE employees SET coin_balance = coin_balance - $1 WHERE id = $2`. -/
def subBalance (db : DB) (amount id : Int) : DB :=
  { db with employees := db.employees.map (fun e =>
      if e.ID = id then { e with CoinBalance := e.CoinBalance - amount } else e) }

/-- Statement `UPDATE employees SET coin_balance = coin_balance + $1 WHERE id = $2`. -/
def addBalance (db : DB) (amount id : Int) : DB :=
  { db with employees := db.employees.map (fun e =>
      if e.ID = id then { e with CoinBalance := e.CoinBalance + amount } else e) }

/-- Statement `INSERT INTO purchases (employee_id, merch_name, price, quantity,
created_at) VALUES (...)`. -/
def insertPurchase (db : DB) (newID employeeID : Int) (merchName : String)
    (price quantity now : Int) : DB :=
  { db with purchases := db.purchases ++ [⟨newID, employeeID, merchName, price, quantity, now⟩] }

/-- Statement `INSERT INTO transactions (employee_id, counterparty_id, amount,
transaction_type, created_at) VALUES (...)`. -/
def insertTransaction (db : DB) (newID employeeID counterpartyID amount : Int)
    (kind : String) (now : Int) : DB :=
  { db with transactions :=
      db.transactions ++ [⟨newID, employeeID, counterpartyID, amount, kind, now⟩] }

/-! ## `repositoryImpl.BuyMerch` -/

/-- Method `BuyMerch(employeeID, merchName, quantity)` of the repository;
`MerchPrices` is `config.MerchPrices`. -/
def BuyMerch (MerchPrices : String → Option Int) (env : Env) (db : DB)
    (employeeID : Int) (merchName : String) (quantity : Int) : Outcome :=
  match MerchPrices merchName with
  | none => ⟨some .ErrInvalidMerch, db, []⟩
  | some price =>
    let totalCost := goMul price quantity
    if env.fail .begin then ⟨some (.storage .begin), db, [.begin]⟩
    else if env.fail .selectBalance then
      ⟨some (.storage .selectBalance), db, [.begin, .selectBalance employeeID, .rollback]⟩
    else
      match selectBalance db employeeID with
      | none => ⟨some .sqlErrNoRows, db, [.begin, .selectBalance employeeID, .rollback]⟩
      | some balance =>
        if balance < totalCost then
          ⟨some .ErrInsufficientFunds, db, [.begin, .selectBalance employeeID, .rollback]⟩
        else if env.fail .debit then
          ⟨some (.storage .debit), db,
            [.begin, .selectBalance employeeID, .subBalance totalCost employeeID, .rollback]⟩
        else
          let tx1 := subBalance db totalCost employeeID
          if env.fail .insert then
            ⟨some (.storage .insert), db,
              [.begin, .selectBalance employeeID, .subBalance totalCost employeeID,
               .insertPurchase employeeID merchName price quantity env.now, .rollback]⟩
          else
            let tx2 := insertPurchase tx1 env.newID employeeID merchName price quantity env.now
            if env.fail .commit then
              ⟨some (.storage .commit), db,
                [.begin, .selectBalance employeeID, .subBalance totalCost employeeID,
                 .insertPurchase employeeID merchName price quantity env.now, .commit]⟩
            else
              ⟨none, tx2,
                [.begin, .selectBalance employeeID, .subBalance totalCost employeeID,
                 .insertPurchase employeeID merchName price quantity env.now, .commit]⟩

/-! ## `repositoryImpl.TransferCoins` -/

/-- Method `TransferCoins(fromID, toID, amount)` of the repository. -/
def TransferCoins (env : Env) (db : DB) (fromID toID amount : Int) : Outcome :=
  if env.fail .begin then ⟨some (.storage .begin), db, [.begin]⟩
  else if env.fail .selectBalance then
    ⟨some (.storage .selectBalance), db, [.begin, .selectBalance fromID, .rollback]⟩
  else
    match selectBalance db fromID with
    | none => ⟨some .sqlErrNoRows, db, [.begin, .selectBalance fromID, .rollback]⟩
    | some fromBalance =>
      if fromBalance < amount then
        ⟨some .ErrInsufficientFunds, db, [.begin, .selectBalance fromID, .rollback]⟩
      else if env.fail .selectToBalance then
        ⟨some (.storage .selectToBalance), db,
          [.begin, .selectBalance fromID, .selectBalance toID, .rollback]⟩
      else
        match selectBalance db toID with
        | none =>
          ⟨some .sqlErrNoRows, db,
            [.begin, .selectBalance fromID, .selectBalance toID, .rollback]⟩
        | some _ =>
          if env.fail .debit then
            ⟨some (.storage .debit), db,
              [.begin, .selectBalance fromID, .selectBalance toID,
               .subBalance amount fromID, .rollback]⟩
          else
            let tx1 := subBalance db amount fromID
            if env.fail .credit then
              ⟨some (.storage .credit), db,
                [.begin, .selectBalance fromID, .selectBalance toID,
                 .subBalance amount fromID, .addBalance amount toID, .rollback]⟩
            else
              let tx2 := addBalance tx1 amount toID
              if env.fail .insert then
                ⟨some (.storage .insert), db,
                  [.begin, .selectBalance fromID, .selectBalance toID,
                   .subBalance amount fromID, .addBalance amount toID,
                   .insertTransaction fromID toID amount "transfer" env.now, .rollback]⟩
              else
                let tx3 := insertTransaction tx2 env.newID fromID toID amount "transfer" env.now
                if env.fail .commit then
                  ⟨some (.storage .commit), db,
                    [.begin, .selectBalance fromID, .selectBalance toID,
                     .subBalance amount fromID, .addBalance amount toID,
                     .insertTransaction fromID toID amount "transfer" env.now, .commit]⟩
                else
                  ⟨none, tx3,
                    [.begin, .selectBalance fromID, .selectBalance toID,
                     .subBalance amount fromID, .addBalance amount toID,
                     .insertTransaction fromID toID amount "transfer" env.now, .commit]⟩

/-! ## `repositoryImpl.CreateEmployee` -/

/-- Result of `CreateEmployee`: the returned employee, the error, and the
committed database. -/
structure Created where
  emp : Employee
  err : Option Err
  db : DB
  deriving DecidableEq, Repr

/-- Method `CreateEmployee(username)`: one `INSERT ... RETURNING` that grants
1000 coins.  On failure the zero `Employee` comes back with the error. -/
def CreateEmployee (env : Env) (db : DB) (username : String) : Created :=
  if env.fail .insert then ⟨⟨0, "", 0, 0⟩, some (.storage .insert), db⟩
  else
    let emp : Employee := ⟨env.newID, username, 1000, env.now⟩
    ⟨emp, none, { db with employees := db.employees ++ [emp] }⟩

/-! ## `repositoryImpl.GetWalletInfo` -/

/-- Order of `ORDER BY created_at DESC`: the first row is not older than the
second. -/
def newerFirst (a b : Transaction) : Prop := b.CreatedAt ≤ a.CreatedAt

instance : DecidableRel newerFirst := fun a b => by
  unfold newerFirst; exact inferInstance

instance : IsTotal Transaction newerFirst :=
  ⟨fun a b => by unfold newerFirst; omega⟩

instance : IsTrans Transaction newerFirst :=
  ⟨fun a b c h1 h2 => by unfold newerFirst at *; omega⟩

/-- Result set of `SELECT id, employee_id, counterparty_id, amount,
transaction_type, created_at FROM transactions WHERE employee_id = $1
ORDER BY created_at DESC`. -/
def walletRows (db : DB) (employeeID : Int) : List Transaction :=
  (db.transactions.filter (fun t => decide (t.EmployeeID = employeeID))).insertionSort newerFirst

/-- The loop `for rows.Next() { rows.Scan(...); append }` from row `i` on, with
`acc` the slice built so far.  A failing `rows.Next()` ends the loop like the
end of the rows does (`rows.Err()` is not consulted); a failing `Scan` returns
a nil slice and the error. -/
def scanRows (env : Env) : List Transaction → Nat → List Transaction →
    List Transaction × Option Err
  | [], _, acc => (acc, none)
  | t :: rest, i, acc =>
    if env.fail (.next i) then (acc, none)
    else if env.fail (.scan i) then ([], some (.storage (.scan i)))
    else scanRows env rest (i + 1) (acc ++ [t])

/-- Result of `GetWalletInfo`: `(balance, transactions, err)`; a nil slice is
the empty list. -/
structure WalletInfo where
  balance : Int
  transactions : List Transaction
  err : Option Err
  deriving DecidableEq, Repr

/-- Method `GetWalletInfo(employeeID)` of the repository. -/
def GetWalletInfo (env : Env) (db : DB) (employeeID : Int) : WalletInfo :=
  if env.fail .walletBalance then ⟨0, [], some (.storage .walletBalance)⟩
  else
    match selectBalance db employeeID with
    | none => ⟨0, [], some .sqlErrNoRows⟩
    | some balance =>
      if env.fail .walletQuery then ⟨balance, [], some (.storage .walletQuery)⟩
      else
        let r := scanRows env (walletRows db employeeID) 0 []
        ⟨balance, r.1, r.2⟩

/-! ## `repositoryImpl.GetEmployeeByID`, `repositoryImpl.GetEmployeeByUsername` -/

/-- Result `(models.Employee, error)` of a lookup. -/
structure Lookup where
  emp : Employee
  err : Option Err
  deriving DecidableEq, Repr

/-- Method `GetEmployeeByID(id)`: `QueryRow(... WHERE id = $1).Scan(...)`.  On
an error the zero `Employee` comes back with it. -/
def GetEmployeeByID (env : Env) (db : DB) (id : Int) : Lookup :=
  if env.fail .selectEmployee then ⟨⟨0, "", 0, 0⟩, some (.storage .selectEmployee)⟩
  else
    match db.employees.find? (fun e => decide (e.ID = id)) with
    | none => ⟨⟨0, "", 0, 0⟩, some .sqlErrNoRows⟩
    | some e => ⟨e, none⟩

/-- Method `GetEmployeeByUsername(username)`:
`QueryRow(... WHERE username = $1).Scan(...)`. -/
def GetEmployeeByUsername (env : Env) (db : DB) (username : String) : Lookup :=
  if env.fail .selectEmployee then ⟨⟨0, "", 0, 0⟩, some (.storage .selectEmployee)⟩
  else
    match db.employees.find? (fun e => decide (e.Username = username)) with
    | none => ⟨⟨0, "", 0, 0⟩, some .sqlErrNoRows⟩
    | some e => ⟨e, none⟩

/-! ## `repositoryImpl.GetInventory` -/

/-- One element of the inventory: the map with the keys `type` and
`quantity`. -/
structure InventoryItem where
  type : String
  quantity : Int
  deriving DecidableEq, Repr

/-- Result `([]map[string]interface{}, error)` of `GetInventory`; a nil slice
is the empty list. -/
structure Inventory where
  items : List InventoryItem
  err : Option Err
  deriving DecidableEq, Repr

/-- The purchase rows of one account. -/
def purchasesOf (db : DB) (employeeID : Int) : List Purchase :=
  db.purchases.filter (fun p => decide (p.EmployeeID = employeeID))

/-- Result set of `SELECT merch_name, SUM(quantity) AS total_quantity FROM
purchases WHERE employee_id = $1 GROUP BY merch_name`: one row per name. -/
def inventoryRows (db : DB) (employeeID : Int) : List (String × Int) :=
  ((purchasesOf db employeeID).map (fun p => p.MerchName)).dedup.map (fun name =>
    (name, (((purchasesOf db employeeID).filter (fun p => decide (p.MerchName = name))).map
      (fun p => p.Quantity)).sum))

/-- The loop `for rows.Next() { rows.Scan(...); append }` of `GetInventory`
from row `i` on, followed by the check of `rows.Err()`: a failing `Scan` and a
failing `rows.Next()` both give a nil slice and the wrapped error. -/
def scanInventory (env : Env) : List (String × Int) → Nat → List InventoryItem →
    List InventoryItem × Option Err
  | [], i, acc =>
    if env.fail (.next i) then ([], some (.wrapped "rows error" (.storage (.next i))))
    else (acc, none)
  | r :: rest, i, acc =>
    if env.fail (.next i) then ([], some (.wrapped "rows error" (.storage (.next i))))
    else if env.fail (.scan i) then
      ([], some (.wrapped "failed to scan row" (.storage (.scan i))))
    else scanInventory env rest (i + 1) (acc ++ [⟨r.1, r.2⟩])

/-- Method `GetInventory(employeeID)` of the repository. -/
def GetInventory (env : Env) (db : DB) (employeeID : Int) : Inventory :=
  if env.fail .inventoryQuery then
    ⟨[], some (.wrapped "failed to query inventory" (.storage .inventoryQuery))⟩
  else
    let r := scanInventory env (inventoryRows db employeeID) 0 []
    ⟨r.1, r.2⟩

/-! ## The interface `repository.Repository` -/

/-- The interface `Repository` of `repository.go`: every method takes the state
of the implementation and returns its result with the state afterwards. -/
structure Repository (σ : Type) where
  CreateEmployee : σ → String → Lookup × σ
  GetEmployeeByID : σ → Int → Lookup × σ
  GetEmployeeByUsername : σ → String → Lookup × σ
  BuyMerch : σ → Int → String → Int → Option Err × σ
  TransferCoins : σ → Int → Int → Int → Option Err × σ
  GetWalletInfo : σ → Int → WalletInfo × σ
  GetInventory : σ → Int → Inventory × σ

/-- The implementation `repositoryImpl`: the state is the committed
database. -/
def sqlRepository (MerchPrices : String → Option Int) (env : Env) : Repository DB where
  CreateEmployee db username :=
    (⟨(CreateEmployee env db username).emp, (CreateEmployee env db username).err⟩,
      (CreateEmployee env db username).db)
  GetEmployeeByID db id := (GetEmployeeByID env db id, db)
  GetEmployeeByUsername db username := (GetEmployeeByUsername env db username, db)
  BuyMerch db employeeID merchName quantity :=
    ((BuyMerch MerchPrices env db employeeID merchName quantity).err,
      (BuyMerch MerchPrices env db employeeID merchName quantity).db)
  TransferCoins db fromID toID amount :=
    ((TransferCoins env db fromID toID amount).err, (TransferCoins env db fromID toID amount).db)
  GetWalletInfo db employeeID := (GetWalletInfo env db employeeID, db)
  GetInventory db employeeID := (GetInventory env db employeeID, db)

/-- A call of a method of the interface, with its arguments. -/
inductive RepoCall where
  | CreateEmployee (username : String)
  | GetEmployeeByID (id : Int)
  | GetEmployeeByUsername (username : String)
  | BuyMerch (employeeID : Int) (merchName : String) (quantity : Int)
  | TransferCoins (fromID toID amount : Int)
  | GetWalletInfo (employeeID : Int)
  | GetInventory (employeeID : Int)
  deriving DecidableEq, Repr

/-! ## Requests and responses -/

/-- A value stored in the `gin.Context`: nil, a `float64` (known by the Go
`int` the conversion `int(v)` yields), or a value of another type. -/
inductive CtxValue where
  | nil
  | float64 (asInt : Int)
  | other
  deriving DecidableEq, Repr

/-- The body `SendCoinRequest` of `SendCoin`. -/
structure SendCoinRequest where
  ToUser : String
  Amount : Int
  deriving DecidableEq, Repr

/-- Error of `c.ShouldBindJSON`: the body did not decode, or fields failed the
tags listed (field, tag). -/
inductive BindError where
  | decode
  | validation (failed : List (String × String))
  deriving DecidableEq, Repr

/-- The text of a field `errors` or `error` of a response: a literal of the
handler, `err.Error()` of a repository error, or of a binding error. -/
inductive ErrText where
  | literal (text : String)
  | ofErr (e : Err)
  | ofBind (e : BindError)
  deriving DecidableEq, Repr

/-- One element of `coinHistory.received` (`user` is `fromUser`) or of
`coinHistory.sent` (`user` is `toUser`). -/
structure HistoryEntry where
  user : Int
  amount : Int
  deriving DecidableEq, Repr

/-- The JSON object of a response. -/
inductive JSONBody where
  | errors (text : ErrText)
  | error (text : String)
  | message (text : String)
  | info (coins : Int) (inventory : List InventoryItem)
      (received sent : List HistoryEntry)
  deriving DecidableEq, Repr

/-- Status code and body written by `c.JSON`. -/
structure Response where
  status : Nat
  body : JSONBody
  deriving DecidableEq, Repr

/-- How a handler ends: with a response, or in the panic of a failed type
assertion. -/
inductive HandlerEnd where
  | response (r : Response)
  | panic
  deriving DecidableEq, Repr

/-- One run of a handler: how it ended, the state of the repository afterwards
and the repository calls it made, in order. -/
structure HandlerRun (σ : Type) where
  out : HandlerEnd
  state : σ
  calls : List RepoCall

/-! ## `Handler.SendCoin` -/

/-- The tags `binding:"required"` on `ToUser` and `binding:"required,gt=0"` on
`Amount`: the fields that fail, each with the first tag it fails. -/
def validate (req : SendCoinRequest) : List (String × String) :=
  (if req.ToUser = "" then [("ToUser", "required")] else []) ++
    (if req.Amount = 0 then [("Amount", "required")]
     else if req.Amount > 0 then [] else [("Amount", "gt")])

/-- Call `c.ShouldBindJSON(&req)`; `decoded` is the body decoded into the
struct, `none` when it does not decode. -/
def ShouldBindJSON (decoded : Option SendCoinRequest) : Except BindError SendCoinRequest :=
  match decoded with
  | none => .error .decode
  | some req => if validate req = [] then .ok req else .error (.validation (validate req))

/-- What `SendCoin` reads from the `gin.Context`: the decoded body and the
value under the key `userID`, if set. -/
structure SendCoinContext where
  body : Option SendCoinRequest
  userID : Option CtxValue

/-- Handler `SendCoin`. -/
def SendCoin {σ : Type} (repo : Repository σ) (s : σ) (c : SendCoinContext) : HandlerRun σ :=
  match ShouldBindJSON c.body with
  | .error e => ⟨.response ⟨400, .errors (.ofBind e)⟩, s, []⟩
  | .ok req =>
    match c.userID with
    | none => ⟨.response ⟨401, .errors (.literal "user not found in context")⟩, s, []⟩
    | some (.float64 fromUserID) =>
      let recipient := repo.GetEmployeeByUsername s req.ToUser
      match recipient.1.err with
      | some _ =>
        ⟨.response ⟨400, .errors (.literal "recipient not found")⟩, recipient.2,
          [.GetEmployeeByUsername req.ToUser]⟩
      | none =>
        let transfer := repo.TransferCoins recipient.2 fromUserID recipient.1.emp.ID req.Amount
        match transfer.1 with
        | some err =>
          ⟨.response ⟨400, .errors (.ofErr err)⟩, transfer.2,
            [.GetEmployeeByUsername req.ToUser,
             .TransferCoins fromUserID recipient.1.emp.ID req.Amount]⟩
        | none =>
          ⟨.response ⟨200, .message "transfer successful"⟩, transfer.2,
            [.GetEmployeeByUsername req.ToUser,
             .TransferCoins fromUserID recipient.1.emp.ID req.Amount]⟩
    | some _ => ⟨.panic, s, []⟩

/-! ## `Handler.GetInfo` -/

/-- Go negation `-a` on `int`. -/
def goNeg (a : Int) : Int := wrapInt (-a)

/-- The loop of `GetInfo` over the transactions, with the slices `received`
and `sent` built so far. -/
def splitHistory : List Transaction → List HistoryEntry → List HistoryEntry →
    List HistoryEntry × List HistoryEntry
  | [], received, sent => (received, sent)
  | t :: rest, received, sent =>
    if t.Amount > 0 then
      splitHistory rest (received ++ [⟨t.CounterpartyID, t.Amount⟩]) sent
    else
      splitHistory rest received (sent ++ [⟨t.CounterpartyID, goNeg t.Amount⟩])

/-- Handler `GetInfo`; `userID` is the value under the key `userID` of the
context, if set. -/
def GetInfo {σ : Type} (repo : Repository σ) (s : σ) (userID : Option CtxValue) :
    HandlerRun σ :=
  match userID with
  | none => ⟨.response ⟨401, .errors (.literal "user not found in context")⟩, s, []⟩
  | some (.float64 id) =>
    let wallet := repo.GetWalletInfo s id
    match wallet.1.err with
    | some err => ⟨.response ⟨500, .errors (.ofErr err)⟩, wallet.2, [.GetWalletInfo id]⟩
    | none =>
      let history := splitHistory wallet.1.transactions [] []
      let inventory := repo.GetInventory wallet.2 id
      match inventory.1.err with
      | some err =>
        ⟨.response ⟨500, .errors (.ofErr err)⟩, inventory.2,
          [.GetWalletInfo id, .GetInventory id]⟩
      | none =>
        ⟨.response ⟨200, .info wallet.1.balance inventory.1.items history.1 history.2⟩,
          inventory.2, [.GetWalletInfo id, .GetInventory id]⟩
  | some _ => ⟨.panic, s, []⟩

/-! ## `middleware.JWTAuthMiddleware` -/

/-- Call `strings.Split(s, " ")` on the characters left, with the characters
of the current part collected in reverse. -/
def splitSpaces : List Char → List Char → List String
  | [], part => [String.mk part.reverse]
  | c :: rest, part =>
    if c = ' ' then String.mk part.reverse :: splitSpaces rest []
    else splitSpaces rest (c :: part)

/-- Call `strings.Split(s, " ")`. -/
def stringsSplit (s : String) : List String := splitSpaces s.data []

/-- What `jwt.Parse` returns, as far as the middleware looks at it: whether
`err != nil`, `token.Valid`, and the claims when they are `jwt.MapClaims`,
known by the value of `claims["userID"]`. -/
structure Parsed where
  err : Bool
  valid : Bool
  claims : Option CtxValue

/-- One run of the middleware: the response of `c.AbortWithStatusJSON` if it
aborted, the value it stored under `userID` if it stored one, and whether it
called `c.Next()`. -/
structure MiddlewareRun where
  aborted : Option Response
  userID : Option CtxValue
  next : Bool
  deriving DecidableEq, Repr

/-- The handler function `JWTAuthMiddleware(secret)` returns; `jwtParse` is
`jwt.Parse` with the key function of the middleware, and `authHeader` is
`c.GetHeader("Authorization")`. -/
def JWTAuthMiddleware (jwtParse : String → String → Parsed) (secret : String)
    (authHeader : String) : MiddlewareRun :=
  if authHeader = "" then
    ⟨some ⟨401, .error "Authorization header is missing"⟩, none, false⟩
  else
    let parts := stringsSplit authHeader
    if parts.length ≠ 2 ∨ parts[0]? ≠ some "Bearer" then
      ⟨some ⟨401, .error "Authorization header format must be Bearer \x7btoken\x7d"⟩,
        none, false⟩
    else
      let tokenStr := parts.getD 1 ""
      if (jwtParse tokenStr secret).err || !(jwtParse tokenStr secret).valid then
        ⟨some ⟨401, .error "Invalid token"⟩, none, false⟩
      else
        match (jwtParse tokenStr secret).claims with
        | some v => ⟨none, some v, true⟩
        | none => ⟨some ⟨401, .error "Invalid token claims"⟩, none, false⟩

/-! ## Vocabulary of the properties -/

/-- Every account balance is at least zero. -/
def NonNegative (db : DB) : Prop := ∀ e ∈ db.employees, 0 ≤ e.CoinBalance

instance (db : DB) : Decidable (NonNegative db) := by
  unfold NonNegative; exact inferInstance

/-- The column `id` identifies the row of `employees`. -/
def UniqueIDs (db : DB) : Prop := (db.employees.map (fun e => e.ID)).Nodup

instance (db : DB) : Decidable (UniqueIDs db) := by
  unfold UniqueIDs; exact inferInstance

/-- Sum of all account balances. -/
def totalBalance (db : DB) : Int := (db.employees.map (fun e => e.CoinBalance)).sum

/-- Sum of `price * quantity` over all purchase records. -/
def purchaseCosts (db : DB) : Int := (db.purchases.map (fun p => p.Price * p.Quantity)).sum

/-- The storage calls `BuyMerch` makes. -/
def buySteps : List Step := [.begin, .selectBalance, .debit, .insert, .commit]

/-- The storage calls `TransferCoins` makes. -/
def transferSteps : List Step :=
  [.begin, .selectBalance, .selectToBalance, .debit, .credit, .insert, .commit]

/-- One call of the ledger core, with the surroundings it runs in. -/
inductive Call where
  | buy (env : Env) (employeeID : Int) (merchName : String) (quantity : Int)
  | transfer (env : Env) (fromID toID amount : Int)

/-- The committed database after one call. -/
def Call.exec (MerchPrices : String → Option Int) (db : DB) : Call → DB
  | .buy env employeeID merchName quantity =>
    (BuyMerch MerchPrices env db employeeID merchName quantity).db
  | .transfer env fromID toID amount => (TransferCoins env db fromID toID amount).db

/-- The committed database after a sequence of calls, first call first. -/
def runCalls (MerchPrices : String → Option Int) (db : DB) (calls : List Call) : DB :=
  calls.foldl (Call.exec MerchPrices) db

/-- The product `price * quantity` of a purchase call is a Go `int`; every
transfer call qualifies. -/
def Call.CostFits (MerchPrices : String → Option Int) : Call → Prop
  | .buy _ _ merchName quantity => ∀ p, MerchPrices merchName = some p → InIntRange (p * quantity)
  | .transfer _ _ _ _ => True

/-- A store of `n` accounts of 1000 coins each and no history. -/
def FreshStore (db : DB) (n : Nat) : Prop :=
  UniqueIDs db ∧ db.employees.length = n ∧ (∀ e ∈ db.employees, e.CoinBalance = 1000) ∧
    db.purchases = [] ∧ db.transactions = []

/-! ## Data used by the examples -/

/-- A price table with the one entry the tests of the repository use. -/
def testPrices : String → Option Int := fun name => if name = "t-shirt" then some 80 else none

/-- Two accounts of 1000 coins and no history. -/
def twoAccounts : DB := ⟨[⟨1, "alice", 1000, 0⟩, ⟨2, "bob", 1000, 0⟩], [], []⟩

/-- Two accounts without coins and no history. -/
def twoEmpty : DB := ⟨[⟨1, "alice", 0, 0⟩, ⟨2, "bob", 0, 0⟩], [], []⟩

/-! # Theorems -/

/-! ## Lemmas on the statements -/

theorem selectBalance_subBalance (db : DB) (amount id id2 : Int) :
    selectBalance (subBalance db amount id) id2 =
      if id2 = id then (selectBalance db id2).map (fun b => b - amount)
      else selectBalance db id2 := by
  unfold selectBalance subBalance
  simp only
  induction db.employees with
  | nil => simp
  | cons e es ih =>
    simp only [List.map_cons, List.find?_cons]
    by_cases h : e.ID = id <;> by_cases h2 : e.ID = id2
    · subst h; subst h2; simp
    · subst h
      have h3 : ¬ id2 = e.ID := fun hh => h2 hh.symm
      simp [h2, h3] at ih ⊢
      exact ih
    · subst h2
      simp [h] at ih ⊢
    · simp only [h, h2, if_false, decide_False] at ih ⊢
      exact ih

theorem selectBalance_addBalance (db : DB) (amount id id2 : Int) :
    selectBalance (addBalance db amount id) id2 =
      if id2 = id then (selectBalance db id2).map (fun b => b + amount)
      else selectBalance db id2 := by
  unfold selectBalance addBalance
  simp only
  induction db.employees with
  | nil => simp
  | cons e es ih =>
    simp only [List.map_cons, List.find?_cons]
    by_cases h : e.ID = id <;> by_cases h2 : e.ID = id2
    · subst h; subst h2; simp
    · subst h
      have h3 : ¬ id2 = e.ID := fun hh => h2 hh.symm
      simp [h2, h3] at ih ⊢
      exact ih
    · subst h2
      simp [h] at ih ⊢
    · simp only [h, h2, if_false, decide_False] at ih ⊢
      exact ih

theorem selectBalance_insertTransaction (db : DB) (n a b c : Int) (k : String) (t id : Int) :
    selectBalance (insertTransaction db n a b c k t) id = selectBalance db id := rfl

theorem selectBalance_insertPurchase (db : DB) (n a : Int) (m : String) (p q t id : Int) :
    selectBalance (insertPurchase db n a m p q t) id = selectBalance db id := rfl

/-- With unique ids, the row of an id is the one `selectBalance` reads. -/
theorem selectBalance_of_mem (db : DB) (hu : UniqueIDs db) (e : Employee)
    (he : e ∈ db.employees) : selectBalance db e.ID = some e.CoinBalance := by
  obtain ⟨emps, ps, ts⟩ := db
  unfold selectBalance
  unfold UniqueIDs at hu
  simp only at hu he ⊢
  induction emps with
  | nil => simp at he
  | cons x xs ih =>
    simp only [List.map_cons, List.nodup_cons, List.mem_map, not_exists, not_and] at hu
    rcases List.mem_cons.mp he with h | h
    · subst h; simp
    · have hne : ¬ x.ID = e.ID := fun hh => hu.1 e h hh.symm
      simp only [List.find?_cons, hne, decide_False]
      exact ih hu.2 h

/-! ## The two exits of a call -/

/-- `TransferCoins` either returns an error and commits nothing, or returns nil
after both reads succeeded and the three writes were committed. -/
theorem TransferCoins_cases (env : Env) (db : DB) (fromID toID amount : Int) :
    ((TransferCoins env db fromID toID amount).err ≠ none ∧
        (TransferCoins env db fromID toID amount).db = db) ∨
      ((TransferCoins env db fromID toID amount).err = none ∧
        (∃ fromBalance, selectBalance db fromID = some fromBalance ∧ amount ≤ fromBalance) ∧
        (∃ toBalance, selectBalance db toID = some toBalance) ∧
        (∀ s ∈ transferSteps, env.fail s = false) ∧
        (TransferCoins env db fromID toID amount).db =
          insertTransaction (addBalance (subBalance db amount fromID) amount toID)
            env.newID fromID toID amount "transfer" env.now) := by
  unfold TransferCoins
  rcases hf : selectBalance db fromID with _ | fromBalance
  · left; simp only; split_ifs <;> simp
  · by_cases hlt : fromBalance < amount
    · left; simp only [hlt, if_true]; split_ifs <;> simp
    · rcases ht : selectBalance db toID with _ | toBalance
      · left; simp only [hlt, if_false]; split_ifs <;> simp
      · simp only [hlt, if_false]
        split_ifs with h1 h2 h3 h4 h5 h6 h7
        · left; simp
        · left; simp
        · left; simp
        · left; simp
        · left; simp
        · left; simp
        · left; simp
        · right
          refine ⟨rfl, ⟨fromBalance, rfl, not_lt.mp hlt⟩, ⟨toBalance, rfl⟩, ?_, rfl⟩
          intro s hs
          simp only [transferSteps, List.mem_cons, List.mem_singleton, List.not_mem_nil,
            or_false] at hs
          rcases hs with h | h | h | h | h | h | h <;> subst h <;> simp_all

/-- `BuyMerch` either returns an error and commits nothing, or returns nil
after the price lookup and the read succeeded and both writes were
committed. -/
theorem BuyMerch_cases (prices : String → Option Int) (env : Env) (db : DB)
    (employeeID : Int) (merchName : String) (quantity : Int) :
    ((BuyMerch prices env db employeeID merchName quantity).err ≠ none ∧
        (BuyMerch prices env db employeeID merchName quantity).db = db) ∨
      (∃ price, prices merchName = some price ∧
        (BuyMerch prices env db employeeID merchName quantity).err = none ∧
        (∃ balance, selectBalance db employeeID = some balance ∧
          goMul price quantity ≤ balance) ∧
        (∀ s ∈ buySteps, env.fail s = false) ∧
        (BuyMerch prices env db employeeID merchName quantity).db =
          insertPurchase (subBalance db (goMul price quantity) employeeID)
            env.newID employeeID merchName price quantity env.now) := by
  unfold BuyMerch
  rcases hp : prices merchName with _ | price
  · left; simp
  · rcases hb : selectBalance db employeeID with _ | balance
    · left; simp only; split_ifs <;> simp
    · by_cases hlt : balance < goMul price quantity
      · left; simp only [hlt, if_true]; split_ifs <;> simp
      · simp only [hlt, if_false]
        split_ifs with h1 h2 h3 h4 h5
        · left; simp
        · left; simp
        · left; simp
        · left; simp
        · left; simp
        · right
          refine ⟨price, rfl, rfl, ⟨balance, rfl, not_lt.mp hlt⟩, ?_, rfl⟩
          intro s hs
          simp only [buySteps, List.mem_cons, List.mem_singleton, List.not_mem_nil,
            or_false] at hs
          rcases hs with h | h | h | h | h <;> subst h <;> simp_all

/-! ## C1: balances stay non-negative -/

/-- C1 (as amended): in a store with unique account ids and no negative
balance, every `BuyMerch` call, whatever its arguments and whichever storage
call fails, and every `TransferCoins` call whose amount is not negative or
whose sender is the recipient, commits a store without a negative balance. -/
theorem nonNegative_preserved (prices : String → Option Int) (env : Env) (db : DB)
    (hu : UniqueIDs db) (h : NonNegative db) :
    (∀ (employeeID : Int) (merchName : String) (quantity : Int),
        NonNegative (BuyMerch prices env db employeeID merchName quantity).db) ∧
      (∀ fromID toID amount : Int, 0 ≤ amount ∨ fromID = toID →
        NonNegative (TransferCoins env db fromID toID amount).db) := by
  constructor
  · intro employeeID merchName quantity
    rcases BuyMerch_cases prices env db employeeID merchName quantity with
      ⟨_, hdb⟩ | ⟨price, _, _, ⟨balance, hb, hle⟩, _, hdb⟩
    · rw [hdb]; exact h
    · rw [hdb]
      intro e he
      simp only [insertPurchase, subBalance, List.mem_map] at he
      obtain ⟨e0, he0, rfl⟩ := he
      have h0 := h e0 he0
      by_cases hid : e0.ID = employeeID
      · have hs := selectBalance_of_mem db hu e0 he0
        rw [hid, hb] at hs
        simp only [hid, if_true]
        have : balance = e0.CoinBalance := Option.some.inj hs
        omega
      · simp only [hid, if_false]; exact h0
  · intro fromID toID amount hcond
    rcases TransferCoins_cases env db fromID toID amount with
      ⟨_, hdb⟩ | ⟨_, ⟨fromBalance, hf, hle⟩, _, _, hdb⟩
    · rw [hdb]; exact h
    · rw [hdb]
      intro e he
      simp only [insertTransaction, addBalance, subBalance, List.mem_map] at he
      obtain ⟨e1, ⟨e0, he0, rfl⟩, rfl⟩ := he
      have h0 := h e0 he0
      by_cases hid : e0.ID = fromID
      · have hs := selectBalance_of_mem db hu e0 he0
        rw [hid, hf] at hs
        have hbal : fromBalance = e0.CoinBalance := Option.some.inj hs
        by_cases hto : fromID = toID
        · simp only [hid, hto, if_true]; omega
        · simp only [hid, hto, if_true, if_false]
          omega
      · by_cases hto : e0.ID = toID
        · have hne : ¬ toID = fromID := fun hh => hid (hto.trans hh)
          simp only [hto, hne, if_true, if_false]
          rcases hcond with hc | hc
          · omega
          · exact absurd hc.symm hne
        · simp only [hid, hto, if_false]; exact h0

/-- Witness for C1: a purchase and a transfer on two accounts of 1000
coins. -/
theorem nonNegative_preserved_witness :
    NonNegative (BuyMerch testPrices (Env.ok 5 1) twoAccounts 1 "t-shirt" 2).db ∧
      NonNegative (TransferCoins (Env.ok 5 1) twoAccounts 1 2 100).db :=
  ⟨(nonNegative_preserved testPrices (Env.ok 5 1) twoAccounts (by decide) (by decide)).1
      1 "t-shirt" 2,
    (nonNegative_preserved testPrices (Env.ok 5 1) twoAccounts (by decide) (by decide)).2
      1 2 100 (Or.inl (by decide))⟩

/-- Counterexample to C1 as stated: with both balances at 0,
`TransferCoins(1, 2, -5)` returns nil and commits balance -5 for account 2. -/
theorem nonNegative_counterexample :
    UniqueIDs twoEmpty ∧ NonNegative twoEmpty ∧
      (TransferCoins (Env.ok 5 1) twoEmpty 1 2 (-5)).err = none ∧
      selectBalance (TransferCoins (Env.ok 5 1) twoEmpty 1 2 (-5)).db 2 = some (-5) ∧
      ¬ NonNegative (TransferCoins (Env.ok 5 1) twoEmpty 1 2 (-5)).db := by
  decide

/-! ## The successful run -/

/-- With both rows present, enough coins at the sender and no failing storage
call, `TransferCoins` runs all its statements and commits. -/
theorem TransferCoins_ok (env : Env) (db : DB) (fromID toID amount fromBalance toBalance : Int)
    (hok : ∀ s ∈ transferSteps, env.fail s = false)
    (hf : selectBalance db fromID = some fromBalance) (hle : amount ≤ fromBalance)
    (ht : selectBalance db toID = some toBalance) :
    TransferCoins env db fromID toID amount =
      ⟨none,
        insertTransaction (addBalance (subBalance db amount fromID) amount toID)
          env.newID fromID toID amount "transfer" env.now,
        [.begin, .selectBalance fromID, .selectBalance toID, .subBalance amount fromID,
          .addBalance amount toID, .insertTransaction fromID toID amount "transfer" env.now,
          .commit]⟩ := by
  have h1 := hok .begin (by simp [transferSteps])
  have h2 := hok .selectBalance (by simp [transferSteps])
  have h3 := hok .selectToBalance (by simp [transferSteps])
  have h4 := hok .debit (by simp [transferSteps])
  have h5 := hok .credit (by simp [transferSteps])
  have h6 := hok .insert (by simp [transferSteps])
  have h7 := hok .commit (by simp [transferSteps])
  have hlt : ¬ fromBalance < amount := not_lt.mpr hle
  simp [TransferCoins, h1, h2, h3, h4, h5, h6, h7, hf, ht, hlt]

/-- With the item priced, the buyer present, enough coins and no failing
storage call, `BuyMerch` runs all its statements and commits. -/
theorem BuyMerch_ok (prices : String → Option Int) (env : Env) (db : DB)
    (employeeID : Int) (merchName : String) (quantity price balance : Int)
    (hok : ∀ s ∈ buySteps, env.fail s = false)
    (hp : prices merchName = some price)
    (hb : selectBalance db employeeID = some balance) (hle : goMul price quantity ≤ balance) :
    BuyMerch prices env db employeeID merchName quantity =
      ⟨none,
        insertPurchase (subBalance db (goMul price quantity) employeeID)
          env.newID employeeID merchName price quantity env.now,
        [.begin, .selectBalance employeeID, .subBalance (goMul price quantity) employeeID,
          .insertPurchase employeeID merchName price quantity env.now, .commit]⟩ := by
  have h1 := hok .begin (by simp [buySteps])
  have h2 := hok .selectBalance (by simp [buySteps])
  have h4 := hok .debit (by simp [buySteps])
  have h6 := hok .insert (by simp [buySteps])
  have h7 := hok .commit (by simp [buySteps])
  have hlt : ¬ balance < goMul price quantity := not_lt.mpr hle
  simp [BuyMerch, h1, h2, h4, h6, h7, hp, hb, hlt]

/-- A product that is a Go `int` is what Go computes. -/
theorem goMul_of_inRange (a b : Int) (h : InIntRange (a * b)) : goMul a b = a * b := by
  unfold InIntRange minInt maxInt intBits at h
  unfold goMul wrapInt intBits
  norm_num at h ⊢
  omega

/-! ## C2: non-positive amounts -/

/-- C2 (as amended): `TransferCoins` has no check on the sign of the amount.
For an amount that is zero or negative, with the sender present and not in
debt, the recipient present and no failing storage call, it returns nil and
commits the sender balance minus the amount, the recipient balance plus the
amount and one transfer record carrying the amount; and whenever it returns an
error the committed store is the one before the call. -/
theorem nonPositive_amount (env : Env) (db : DB) (fromID toID amount : Int)
    (hle : amount ≤ 0) :
    ((TransferCoins env db fromID toID amount).err ≠ none →
        (TransferCoins env db fromID toID amount).db = db) ∧
      (∀ fromBalance toBalance : Int,
        selectBalance db fromID = some fromBalance → 0 ≤ fromBalance →
        selectBalance db toID = some toBalance →
        (∀ s ∈ transferSteps, env.fail s = false) →
        (TransferCoins env db fromID toID amount).err = none ∧
          (TransferCoins env db fromID toID amount).db.employees =
            (db.employees.map (fun e =>
              if e.ID = fromID then { e with CoinBalance := e.CoinBalance - amount } else e)).map
              (fun e =>
                if e.ID = toID then { e with CoinBalance := e.CoinBalance + amount } else e) ∧
          (TransferCoins env db fromID toID amount).db.transactions =
            db.transactions ++ [⟨env.newID, fromID, toID, amount, "transfer", env.now⟩]) := by
  constructor
  · intro herr
    rcases TransferCoins_cases env db fromID toID amount with ⟨_, hdb⟩ | ⟨hnone, _⟩
    · exact hdb
    · exact absurd hnone herr
  · intro fromBalance toBalance hf h0 ht hok
    rw [TransferCoins_ok env db fromID toID amount fromBalance toBalance hok hf (by omega) ht]
    exact ⟨rfl, rfl, rfl⟩

/-- Witness for C2: amount 0 between two accounts of 1000 coins. -/
theorem nonPositive_amount_witness :
    (TransferCoins (Env.ok 5 1) twoAccounts 1 2 0).err = none ∧
      (TransferCoins (Env.ok 5 1) twoAccounts 1 2 0).db.transactions =
        [⟨1, 1, 2, 0, "transfer", 5⟩] :=
  have h := (nonPositive_amount (Env.ok 5 1) twoAccounts 1 2 0 (by decide)).2 1000 1000
    (by decide) (by decide) (by decide) (fun _ _ => rfl)
  ⟨h.1, h.2.2⟩

/-- Counterexample to C2 as stated: `TransferCoins(1, 2, 0)` returns nil and
appends a record, and `TransferCoins(1, 2, -5)` returns nil and moves five
coins from the recipient to the sender. -/
theorem nonPositive_amount_counterexample :
    (TransferCoins (Env.ok 5 1) twoAccounts 1 2 0).err = none ∧
      (TransferCoins (Env.ok 5 1) twoAccounts 1 2 0).db.transactions ≠
        twoAccounts.transactions ∧
      (TransferCoins (Env.ok 5 1) twoAccounts 1 2 (-5)).err = none ∧
      selectBalance (TransferCoins (Env.ok 5 1) twoAccounts 1 2 (-5)).db 1 = some 1005 ∧
      selectBalance (TransferCoins (Env.ok 5 1) twoAccounts 1 2 (-5)).db 2 = some 995 := by
  decide

/-! ## C3: the successful transfer -/

/-- C3: for distinct accounts that both exist and an amount with
`0 < amount ≤ balance(from)`, when no storage call fails `TransferCoins`
returns nil, the sender balance is lower by the amount, the recipient balance
higher by the amount, every other row of `employees` and all purchases are
unchanged, and the history is the old one plus the record
`(from, to, amount, "transfer")`. -/
theorem transfer_success (env : Env) (db : DB)
    (fromID toID amount fromBalance toBalance : Int)
    (hne : fromID ≠ toID)
    (hf : selectBalance db fromID = some fromBalance)
    (ht : selectBalance db toID = some toBalance)
    (hpos : 0 < amount) (hle : amount ≤ fromBalance)
    (hok : ∀ s ∈ transferSteps, env.fail s = false) :
    (TransferCoins env db fromID toID amount).err = none ∧
      selectBalance (TransferCoins env db fromID toID amount).db fromID =
        some (fromBalance - amount) ∧
      selectBalance (TransferCoins env db fromID toID amount).db toID =
        some (toBalance + amount) ∧
      (∀ id, id ≠ fromID → id ≠ toID →
        selectBalance (TransferCoins env db fromID toID amount).db id = selectBalance db id) ∧
      (TransferCoins env db fromID toID amount).db.employees =
        db.employees.map (fun e =>
          if e.ID = fromID then { e with CoinBalance := e.CoinBalance - amount }
          else if e.ID = toID then { e with CoinBalance := e.CoinBalance + amount }
          else e) ∧
      (TransferCoins env db fromID toID amount).db.purchases = db.purchases ∧
      (TransferCoins env db fromID toID amount).db.transactions =
        db.transactions ++ [⟨env.newID, fromID, toID, amount, "transfer", env.now⟩] := by
  have _ := hpos
  rw [TransferCoins_ok env db fromID toID amount fromBalance toBalance hok hf hle ht]
  refine ⟨rfl, ?_, ?_, ?_, ?_, rfl, rfl⟩
  · rw [selectBalance_insertTransaction, selectBalance_addBalance, selectBalance_subBalance]
    simp [hne, hf]
  · rw [selectBalance_insertTransaction, selectBalance_addBalance, selectBalance_subBalance]
    simp [Ne.symm hne, ht]
  · intro id h1 h2
    rw [selectBalance_insertTransaction, selectBalance_addBalance, selectBalance_subBalance]
    simp [h1, h2]
  · simp only [insertTransaction, addBalance, subBalance, List.map_map]
    apply List.map_congr_left
    intro e _
    simp only [Function.comp]
    by_cases h1 : e.ID = fromID
    · have h2 : ¬ fromID = toID := hne
      simp [h1, h2]
    · simp [h1]

/-- Witness for C3: 100 coins from account 1 to account 2. -/
theorem transfer_success_witness :
    (TransferCoins (Env.ok 5 1) twoAccounts 1 2 100).err = none ∧
      selectBalance (TransferCoins (Env.ok 5 1) twoAccounts 1 2 100).db 1 = some 900 ∧
      selectBalance (TransferCoins (Env.ok 5 1) twoAccounts 1 2 100).db 2 = some 1100 :=
  have h := transfer_success (Env.ok 5 1) twoAccounts 1 2 100 1000 1000 (by decide)
    (by decide) (by decide) (by decide) (by decide) (fun _ _ => rfl)
  ⟨h.1, h.2.1, h.2.2.1⟩

/-! ## C4: transfer without enough coins -/

/-- C4: when the sender exists and holds less than the amount, and the calls
up to the read of the sender balance succeed, `TransferCoins` returns
`ErrInsufficientFunds`, commits nothing, and has issued only the begin, the
read of the sender balance and the rollback. -/
theorem transfer_insufficient (env : Env) (db : DB) (fromID toID amount fromBalance : Int)
    (hb : env.fail .begin = false) (hs : env.fail .selectBalance = false)
    (hf : selectBalance db fromID = some fromBalance) (hlt : fromBalance < amount) :
    TransferCoins env db fromID toID amount =
      ⟨some .ErrInsufficientFunds, db, [.begin, .selectBalance fromID, .rollback]⟩ := by
  simp [TransferCoins, hb, hs, hf, hlt]

/-- Witness for C4: 1001 coins out of an account of 1000. -/
theorem transfer_insufficient_witness :
    TransferCoins (Env.ok 5 1) twoAccounts 1 2 1001 =
      ⟨some .ErrInsufficientFunds, twoAccounts, [.begin, .selectBalance 1, .rollback]⟩ :=
  transfer_insufficient (Env.ok 5 1) twoAccounts 1 2 1001 1000 rfl rfl (by decide) (by decide)

/-! ## C5: the successful purchase -/

/-- C5: for a buyer that exists with a balance that is a Go `int`, an item of
the catalog with a positive unit price `p` and a quantity `q ≥ 1` with
`p * q ≤ balance(buyer)`, when no storage call fails `BuyMerch` returns nil,
the buyer balance is lower by `p * q`, every other row of `employees` and the
transaction history are unchanged, and the purchases are the old ones plus the
record `(buyer, item, p, q)`, where `p` is the unit price. -/
theorem purchase_success (prices : String → Option Int) (env : Env) (db : DB)
    (buyer : Int) (item : String) (p q balance : Int)
    (hp : prices item = some p) (hpos : 0 < p) (hq : 1 ≤ q)
    (hb : selectBalance db buyer = some balance) (hint : InIntRange balance)
    (hle : p * q ≤ balance)
    (hok : ∀ s ∈ buySteps, env.fail s = false) :
    (BuyMerch prices env db buyer item q).err = none ∧
      selectBalance (BuyMerch prices env db buyer item q).db buyer = some (balance - p * q) ∧
      (∀ id, id ≠ buyer →
        selectBalance (BuyMerch prices env db buyer item q).db id = selectBalance db id) ∧
      (BuyMerch prices env db buyer item q).db.employees =
        db.employees.map (fun e =>
          if e.ID = buyer then { e with CoinBalance := e.CoinBalance - p * q } else e) ∧
      (BuyMerch prices env db buyer item q).db.transactions = db.transactions ∧
      (BuyMerch prices env db buyer item q).db.purchases =
        db.purchases ++ [⟨env.newID, buyer, item, p, q, env.now⟩] := by
  have hprod : 0 < p * q := Int.mul_pos hpos (by omega)
  have hfit : InIntRange (p * q) := by
    unfold InIntRange minInt maxInt intBits at *
    norm_num at hint ⊢
    omega
  have hgo : goMul p q = p * q := goMul_of_inRange p q hfit
  rw [BuyMerch_ok prices env db buyer item q p balance hok hp hb (by rw [hgo]; exact hle), hgo]
  refine ⟨rfl, ?_, ?_, rfl, rfl, rfl⟩
  · rw [selectBalance_insertPurchase, selectBalance_subBalance]
    simp [hb]
  · intro id h1
    rw [selectBalance_insertPurchase, selectBalance_subBalance]
    simp [h1]

/-- Witness for C5: two t-shirts at 80 coins out of 1000. -/
theorem purchase_success_witness :
    (BuyMerch testPrices (Env.ok 5 1) twoAccounts 1 "t-shirt" 2).err = none ∧
      selectBalance (BuyMerch testPrices (Env.ok 5 1) twoAccounts 1 "t-shirt" 2).db 1 =
        some (1000 - 80 * 2) ∧
      (BuyMerch testPrices (Env.ok 5 1) twoAccounts 1 "t-shirt" 2).db.purchases =
        twoAccounts.purchases ++ [⟨1, 1, "t-shirt", 80, 2, 5⟩] :=
  have h := purchase_success testPrices (Env.ok 5 1) twoAccounts 1 "t-shirt" 80 2 1000
    (by decide) (by decide) (by decide) (by decide) (by decide) (by decide) (fun _ _ => rfl)
  ⟨h.1, h.2.1, h.2.2.2.2.2⟩

/-! ## C6: purchase without enough coins -/

/-- C6 (as amended): when the product `p * q` of the unit price and the
quantity is a Go `int`, the buyer exists and holds less than `p * q`, and the
calls up to the read of the balance succeed, `BuyMerch` returns
`ErrInsufficientFunds`, commits nothing (no balance changes, no purchase
record), and has issued only the begin, the read and the rollback. -/
theorem purchase_insufficient (prices : String → Option Int) (env : Env) (db : DB)
    (buyer : Int) (item : String) (p q balance : Int)
    (hbegin : env.fail .begin = false) (hs : env.fail .selectBalance = false)
    (hp : prices item = some p)
    (hb : selectBalance db buyer = some balance)
    (hfit : InIntRange (p * q)) (hlt : balance < p * q) :
    BuyMerch prices env db buyer item q =
      ⟨some .ErrInsufficientFunds, db, [.begin, .selectBalance buyer, .rollback]⟩ := by
  have hgo : goMul p q = p * q := goMul_of_inRange p q hfit
  simp [BuyMerch, hbegin, hs, hp, hb, hgo, hlt]

/-- Witness for C6: thirteen t-shirts at 80 coins out of 1000. -/
theorem purchase_insufficient_witness :
    BuyMerch testPrices (Env.ok 5 1) twoAccounts 1 "t-shirt" 13 =
      ⟨some .ErrInsufficientFunds, twoAccounts, [.begin, .selectBalance 1, .rollback]⟩ :=
  purchase_insufficient testPrices (Env.ok 5 1) twoAccounts 1 "t-shirt" 80 13 1000 rfl rfl
    (by decide) (by decide) (by decide) (by decide)

/-- Counterexample to C6 as stated: for the quantity `2 ^ 62` the Go product
`80 * quantity` wraps around to 0, so the buyer with 1000 coins, far less than
`80 * 2 ^ 62`, is not refused: `BuyMerch` returns nil and writes a purchase
record. -/
theorem purchase_insufficient_counterexample :
    selectBalance twoAccounts 1 = some 1000 ∧ testPrices "t-shirt" = some 80 ∧
      (1000 : Int) < 80 * 2 ^ 62 ∧ InIntRange (2 ^ 62) ∧
      goMul 80 (2 ^ 62) = 0 ∧
      (BuyMerch testPrices (Env.ok 5 1) twoAccounts 1 "t-shirt" (2 ^ 62)).err = none ∧
      (BuyMerch testPrices (Env.ok 5 1) twoAccounts 1 "t-shirt" (2 ^ 62)).db.purchases =
        [⟨1, 1, "t-shirt", 80, 2 ^ 62, 5⟩] := by
  decide

/-! ## C7: the item that is not in the catalog -/

/-- C7: for a name that is not a key of the catalog, `BuyMerch` returns
`ErrInvalidMerch` without issuing any statement and with the store unchanged,
whatever the buyer, the quantity, the store and the failing storage calls; and
for a name that is in the catalog it never returns `ErrInvalidMerch`. -/
theorem invalid_merch (prices : String → Option Int) (env : Env) (db : DB)
    (employeeID : Int) (merchName : String) (quantity : Int) :
    (prices merchName = none →
        BuyMerch prices env db employeeID merchName quantity =
          ⟨some .ErrInvalidMerch, db, []⟩) ∧
      (prices merchName ≠ none →
        (BuyMerch prices env db employeeID merchName quantity).err ≠ some .ErrInvalidMerch) := by
  constructor
  · intro h
    simp [BuyMerch, h]
  · intro h
    rcases hp : prices merchName with _ | price
    · exact absurd hp h
    · unfold BuyMerch
      simp only [hp]
      rcases hb : selectBalance db employeeID with _ | balance
      · simp only; split_ifs <;> simp
      · simp only; split_ifs <;> simp

/-- Witness for C7: a pen is not in the test catalog, the t-shirt is; even
with every storage call failing the pen is refused as invalid. -/
theorem invalid_merch_witness :
    BuyMerch testPrices ⟨fun _ => true, 5, 1⟩ twoAccounts 7 "pen" (-3) =
        ⟨some .ErrInvalidMerch, twoAccounts, []⟩ ∧
      (BuyMerch testPrices ⟨fun _ => true, 5, 1⟩ twoAccounts 1 "t-shirt" 1).err ≠
        some .ErrInvalidMerch :=
  ⟨(invalid_merch testPrices ⟨fun _ => true, 5, 1⟩ twoAccounts 7 "pen" (-3)).1 (by decide),
    (invalid_merch testPrices ⟨fun _ => true, 5, 1⟩ twoAccounts 1 "t-shirt" 1).2 (by decide)⟩

/-! ## C9: atomicity under failure injection -/

/-- C9: whichever storage call of `BuyMerch` (begin, balance read, balance
update, history insert, commit) or of `TransferCoins` (begin, the two reads,
the two updates, history insert, commit) fails, for every store and all
arguments the method returns an error and the committed store, balances,
purchases and transactions alike, is the one before the call. -/
theorem atomicity (prices : String → Option Int) (env : Env) (db : DB) (s : Step)
    (hs : env.fail s = true) :
    (s ∈ buySteps → ∀ (employeeID : Int) (merchName : String) (quantity : Int),
        (BuyMerch prices env db employeeID merchName quantity).err ≠ none ∧
          (BuyMerch prices env db employeeID merchName quantity).db = db) ∧
      (s ∈ transferSteps → ∀ fromID toID amount : Int,
        (TransferCoins env db fromID toID amount).err ≠ none ∧
          (TransferCoins env db fromID toID amount).db = db) := by
  constructor
  · intro hmem employeeID merchName quantity
    rcases BuyMerch_cases prices env db employeeID merchName quantity with
      h | ⟨_, _, _, _, hok, _⟩
    · exact h
    · have := hok s hmem
      rw [hs] at this
      exact absurd this (by decide)
  · intro hmem fromID toID amount
    rcases TransferCoins_cases env db fromID toID amount with h | ⟨_, _, _, hok, _⟩
    · exact h
    · have := hok s hmem
      rw [hs] at this
      exact absurd this (by decide)

/-- Witness for C9: the history insert fails after the balance updates went
through; the balances read afterwards are the old ones. -/
theorem atomicity_witness :
    ((BuyMerch testPrices ⟨fun s => decide (s = .insert), 5, 1⟩ twoAccounts 1 "t-shirt" 1).err
          ≠ none ∧
        (BuyMerch testPrices ⟨fun s => decide (s = .insert), 5, 1⟩ twoAccounts 1 "t-shirt" 1).db
          = twoAccounts) ∧
      ((TransferCoins ⟨fun s => decide (s = .insert), 5, 1⟩ twoAccounts 1 2 100).err ≠ none ∧
        (TransferCoins ⟨fun s => decide (s = .insert), 5, 1⟩ twoAccounts 1 2 100).db
          = twoAccounts) :=
  ⟨(atomicity testPrices ⟨fun s => decide (s = .insert), 5, 1⟩ twoAccounts .insert
      (by decide)).1 (by decide) 1 "t-shirt" 1,
    (atomicity testPrices ⟨fun s => decide (s = .insert), 5, 1⟩ twoAccounts .insert
      (by decide)).2 (by decide) 1 2 100⟩

/-! ## Lemmas on the sum of the balances -/

/-- Rewriting the balance of the rows of one id leaves the ids as they are. -/
theorem map_ID_update (l : List Employee) (id : Int) (g : Int → Int) :
    (l.map (fun e => if e.ID = id then { e with CoinBalance := g e.CoinBalance } else e)).map
      (fun e => e.ID) = l.map (fun e => e.ID) := by
  rw [List.map_map]
  apply List.map_congr_left
  intro e _
  simp only [Function.comp]
  split_ifs <;> rfl

/-- An update for an id no row carries changes nothing. -/
theorem update_absent (l : List Employee) (id : Int) (g : Int → Int)
    (h : ∀ e ∈ l, e.ID ≠ id) :
    l.map (fun e => if e.ID = id then { e with CoinBalance := g e.CoinBalance } else e) = l := by
  induction l with
  | nil => rfl
  | cons x xs ih =>
    have hx : ¬ x.ID = id := h x (List.mem_cons_self x xs)
    simp only [List.map_cons, hx, if_false]
    rw [ih (fun e he => h e (List.mem_cons_of_mem x he))]

/-- With unique ids, rewriting the balance `b` of one id to `g b` moves the sum
of the balances by `g b - b`. -/
theorem sum_update (l : List Employee) (id b : Int) (g : Int → Int)
    (hu : (l.map (fun e => e.ID)).Nodup)
    (hb : (l.find? (fun e => decide (e.ID = id))).map (fun e => e.CoinBalance) = some b) :
    ((l.map (fun e => if e.ID = id then { e with CoinBalance := g e.CoinBalance } else e)).map
      (fun e => e.CoinBalance)).sum = (l.map (fun e => e.CoinBalance)).sum + (g b - b) := by
  induction l with
  | nil => simp at hb
  | cons x xs ih =>
    simp only [List.map_cons, List.nodup_cons, List.mem_map, not_exists, not_and] at hu
    by_cases hx : x.ID = id
    · have habs : ∀ e ∈ xs, e.ID ≠ id := fun e he hh => hu.1 e he (hh.trans hx.symm)
      simp only [List.find?_cons, hx, decide_True, Option.map_some', Option.some.injEq] at hb
      simp only [List.map_cons, hx, if_true, List.sum_cons]
      rw [update_absent xs id g habs, hb]
      ring
    · simp only [List.find?_cons, hx, decide_False] at hb
      simp only [List.map_cons, hx, if_false, List.sum_cons]
      rw [ih hu.2 hb]
      ring

theorem uniqueIDs_subBalance (db : DB) (amount id : Int) (hu : UniqueIDs db) :
    UniqueIDs (subBalance db amount id) := by
  unfold UniqueIDs subBalance at *
  simp only
  rw [map_ID_update db.employees id (fun b => b - amount)]
  exact hu

theorem uniqueIDs_addBalance (db : DB) (amount id : Int) (hu : UniqueIDs db) :
    UniqueIDs (addBalance db amount id) := by
  unfold UniqueIDs addBalance at *
  simp only
  rw [map_ID_update db.employees id (fun b => b + amount)]
  exact hu

theorem totalBalance_subBalance (db : DB) (amount id b : Int) (hu : UniqueIDs db)
    (hb : selectBalance db id = some b) :
    totalBalance (subBalance db amount id) = totalBalance db - amount := by
  unfold totalBalance subBalance
  simp only
  rw [sum_update db.employees id b (fun x => x - amount) hu hb]
  ring

theorem totalBalance_addBalance (db : DB) (amount id b : Int) (hu : UniqueIDs db)
    (hb : selectBalance db id = some b) :
    totalBalance (addBalance db amount id) = totalBalance db + amount := by
  unfold totalBalance addBalance
  simp only
  rw [sum_update db.employees id b (fun x => x + amount) hu hb]
  ring

/-- One call keeps the ids unique and, when its cost is a Go `int`, keeps the
sum of the balances and of the purchase costs. -/
theorem exec_conserves (prices : String → Option Int) (db : DB) (c : Call)
    (hu : UniqueIDs db) (hfit : c.CostFits prices) :
    UniqueIDs (c.exec prices db) ∧
      totalBalance (c.exec prices db) + purchaseCosts (c.exec prices db) =
        totalBalance db + purchaseCosts db := by
  cases c with
  | buy env employeeID merchName quantity =>
    simp only [Call.exec]
    rcases BuyMerch_cases prices env db employeeID merchName quantity with
      ⟨_, hdb⟩ | ⟨price, hp, _, ⟨balance, hb, _⟩, _, hdb⟩
    · rw [hdb]; exact ⟨hu, rfl⟩
    · rw [hdb]
      have hgo : goMul price quantity = price * quantity :=
        goMul_of_inRange price quantity (hfit price hp)
      refine ⟨uniqueIDs_subBalance db _ employeeID hu, ?_⟩
      have h1 : totalBalance (insertPurchase (subBalance db (goMul price quantity) employeeID)
          env.newID employeeID merchName price quantity env.now) =
          totalBalance db - goMul price quantity :=
        totalBalance_subBalance db _ employeeID balance hu hb
      have h2 : purchaseCosts (insertPurchase (subBalance db (goMul price quantity) employeeID)
          env.newID employeeID merchName price quantity env.now) =
          purchaseCosts db + price * quantity := by
        simp [purchaseCosts, insertPurchase, subBalance]
      rw [h1, h2, hgo]
      ring
  | transfer env fromID toID amount =>
    simp only [Call.exec]
    rcases TransferCoins_cases env db fromID toID amount with
      ⟨_, hdb⟩ | ⟨_, ⟨fromBalance, hf, _⟩, ⟨toBalance, ht⟩, _, hdb⟩
    · rw [hdb]; exact ⟨hu, rfl⟩
    · rw [hdb]
      have hu1 := uniqueIDs_subBalance db amount fromID hu
      refine ⟨uniqueIDs_addBalance _ amount toID hu1, ?_⟩
      have hto : ∃ b, selectBalance (subBalance db amount fromID) toID = some b := by
        rw [selectBalance_subBalance]
        split_ifs with h
        · exact ⟨toBalance - amount, by rw [ht]; rfl⟩
        · exact ⟨toBalance, ht⟩
      obtain ⟨b, hb⟩ := hto
      have h1 : totalBalance (insertTransaction
          (addBalance (subBalance db amount fromID) amount toID)
          env.newID fromID toID amount "transfer" env.now) =
          totalBalance (subBalance db amount fromID) + amount :=
        totalBalance_addBalance _ amount toID b hu1 hb
      have h2 : purchaseCosts (insertTransaction
          (addBalance (subBalance db amount fromID) amount toID)
          env.newID fromID toID amount "transfer" env.now) = purchaseCosts db := rfl
      rw [h1, h2, totalBalance_subBalance db amount fromID fromBalance hu hf]
      ring

/-- A sequence of calls whose costs are Go `int`s keeps the ids unique and the
sum of the balances and of the purchase costs. -/
theorem runCalls_conserves (prices : String → Option Int) (calls : List Call) :
    ∀ db : DB, UniqueIDs db → (∀ c ∈ calls, c.CostFits prices) →
      totalBalance (runCalls prices db calls) + purchaseCosts (runCalls prices db calls) =
        totalBalance db + purchaseCosts db := by
  induction calls with
  | nil => intro db _ _; rfl
  | cons c cs ih =>
    intro db hu hfit
    have hstep := exec_conserves prices db c hu (hfit c (List.mem_cons_self c cs))
    have hrest := ih (c.exec prices db) hstep.1 (fun d hd => hfit d (List.mem_cons_of_mem c hd))
    simp only [runCalls, List.foldl_cons] at hrest ⊢
    rw [hrest, hstep.2]

/-- Rows of 1000 coins each sum to 1000 times their number. -/
theorem sum_of_grants (l : List Employee) (h : ∀ e ∈ l, e.CoinBalance = 1000) :
    (l.map (fun e => e.CoinBalance)).sum = 1000 * (l.length : Int) := by
  induction l with
  | nil => simp
  | cons x xs ih =>
    have hx := h x (List.mem_cons_self x xs)
    have hxs := ih (fun e he => h e (List.mem_cons_of_mem x he))
    simp only [List.map_cons, List.sum_cons, List.length_cons, Nat.cast_add, Nat.cast_one]
    rw [hxs, hx]
    ring

/-- A fresh store of `n` accounts holds `1000 * n` coins and no purchase. -/
theorem freshStore_total (db : DB) (n : Nat) (h : FreshStore db n) :
    totalBalance db + purchaseCosts db = 1000 * (n : Int) := by
  obtain ⟨_, hlen, hbal, hpur, _⟩ := h
  unfold totalBalance purchaseCosts
  rw [hpur, sum_of_grants db.employees hbal, hlen]
  simp

/-! ## C8: conservation -/

/-- C8 (as amended): starting from a store of `n` accounts with unique ids,
1000 coins each and no history, after each call of any sequence of `BuyMerch`
and `TransferCoins` calls, successful or failed, with arbitrary arguments and
failures, in which the product `price * quantity` of every purchase is a Go
`int`, the sum of all balances plus the sum of `price * quantity` over all
purchase records is `1000 * n`. -/
theorem conservation (prices : String → Option Int) (n : Nat) (db : DB) (calls : List Call)
    (hfresh : FreshStore db n) (hfit : ∀ c ∈ calls, c.CostFits prices) (k : Nat) :
    totalBalance (runCalls prices db (calls.take k)) +
      purchaseCosts (runCalls prices db (calls.take k)) = 1000 * (n : Int) := by
  rw [runCalls_conserves prices (calls.take k) db hfresh.1
    (fun c hc => hfit c (List.mem_of_mem_take hc))]
  exact freshStore_total db n hfresh

/-- Witness for C8: a purchase, a transfer, a transfer that is refused and a
purchase whose commit fails, on two accounts. -/
theorem conservation_witness :
    FreshStore twoAccounts 2 ∧
      totalBalance (runCalls testPrices twoAccounts
        [.buy (Env.ok 5 1) 1 "t-shirt" 2, .transfer (Env.ok 6 1) 1 2 100,
          .transfer (Env.ok 7 2) 2 1 5000,
          .buy ⟨fun s => decide (s = .commit), 8, 2⟩ 2 "t-shirt" 1]) +
        purchaseCosts (runCalls testPrices twoAccounts
          [.buy (Env.ok 5 1) 1 "t-shirt" 2, .transfer (Env.ok 6 1) 1 2 100,
            .transfer (Env.ok 7 2) 2 1 5000,
            .buy ⟨fun s => decide (s = .commit), 8, 2⟩ 2 "t-shirt" 1]) = 1000 * ((2 : Nat) : Int) :=
  have hfresh : FreshStore twoAccounts 2 := ⟨by decide, rfl, by decide, rfl, rfl⟩
  ⟨hfresh,
    conservation testPrices 2 twoAccounts
      [.buy (Env.ok 5 1) 1 "t-shirt" 2, .transfer (Env.ok 6 1) 1 2 100,
        .transfer (Env.ok 7 2) 2 1 5000,
        .buy ⟨fun s => decide (s = .commit), 8, 2⟩ 2 "t-shirt" 1]
      hfresh
      (by
        intro c hc
        simp only [List.mem_cons, List.mem_singleton, List.not_mem_nil, or_false] at hc
        rcases hc with rfl | rfl | rfl | rfl
        · intro p hp
          have : p = 80 := by simpa [testPrices] using hp.symm
          subst this; decide
        · trivial
        · trivial
        · intro p hp
          have : p = 80 := by simpa [testPrices] using hp.symm
          subst this; decide)
      4⟩

/-- Counterexample to C8 as stated: `BuyMerch(1, "t-shirt", 2 ^ 62)` on two
fresh accounts charges the wrapped product 0 and records a purchase of
`80 * 2 ^ 62` coins, so balances plus purchase costs exceed 2000. -/
theorem conservation_counterexample :
    UniqueIDs twoAccounts ∧ twoAccounts.employees.length = 2 ∧
      (∀ e ∈ twoAccounts.employees, e.CoinBalance = 1000) ∧
      twoAccounts.purchases = [] ∧ twoAccounts.transactions = [] ∧
      totalBalance (runCalls testPrices twoAccounts [.buy (Env.ok 5 1) 1 "t-shirt" (2 ^ 62)]) =
        2000 ∧
      purchaseCosts (runCalls testPrices twoAccounts [.buy (Env.ok 5 1) 1 "t-shirt" (2 ^ 62)]) =
        80 * 2 ^ 62 ∧
      totalBalance (runCalls testPrices twoAccounts [.buy (Env.ok 5 1) 1 "t-shirt" (2 ^ 62)]) +
        purchaseCosts (runCalls testPrices twoAccounts [.buy (Env.ok 5 1) 1 "t-shirt" (2 ^ 62)])
        ≠ 1000 * 2 := by
  decide

/-! ## C10: the wallet view -/

/-- Without a failing call the row loop appends all rows to the slice. -/
theorem scanRows_ok (env : Env) (hok : ∀ s, env.fail s = false) (rows : List Transaction) :
    ∀ (i : Nat) (acc : List Transaction), scanRows env rows i acc = (acc ++ rows, none) := by
  induction rows with
  | nil => intro i acc; simp [scanRows]
  | cons t rest ih =>
    intro i acc
    simp [scanRows, hok, ih]

/-- C10 (as amended): for an account that exists, when no storage call fails
`GetWalletInfo` returns nil, the current balance of the account, and exactly
the stored transaction records whose `employee_id` is the account (each as
often as it is stored, none whose only link to the account is
`counterparty_id`), ordered by `created_at` with the newest first. -/
theorem wallet_info (env : Env) (db : DB) (employeeID balance : Int)
    (hok : ∀ s, env.fail s = false) (hb : selectBalance db employeeID = some balance) :
    (GetWalletInfo env db employeeID).err = none ∧
      (GetWalletInfo env db employeeID).balance = balance ∧
      (GetWalletInfo env db employeeID).transactions.Perm
        (db.transactions.filter (fun t => decide (t.EmployeeID = employeeID))) ∧
      (∀ t, t ∈ (GetWalletInfo env db employeeID).transactions ↔
        t ∈ db.transactions ∧ t.EmployeeID = employeeID) ∧
      (GetWalletInfo env db employeeID).transactions.Sorted newerFirst := by
  have hw : GetWalletInfo env db employeeID = ⟨balance, walletRows db employeeID, none⟩ := by
    simp [GetWalletInfo, hok, hb, scanRows_ok env hok]
  rw [hw]
  have hperm : (walletRows db employeeID).Perm
      (db.transactions.filter (fun t => decide (t.EmployeeID = employeeID))) :=
    List.perm_insertionSort newerFirst _
  refine ⟨rfl, rfl, hperm, ?_, ?_⟩
  · intro t
    simp only
    rw [hperm.mem_iff]
    simp [List.mem_filter]
  · exact List.sorted_insertionSort newerFirst _

/-- Witness for C10: the wallet of the sender after one transfer. -/
theorem wallet_info_witness :
    (GetWalletInfo (Env.ok 9 3) (TransferCoins (Env.ok 5 1) twoAccounts 1 2 100).db 1).err
        = none ∧
      (GetWalletInfo (Env.ok 9 3) (TransferCoins (Env.ok 5 1) twoAccounts 1 2 100).db 1).balance
        = 900 :=
  have h := wallet_info (Env.ok 9 3) (TransferCoins (Env.ok 5 1) twoAccounts 1 2 100).db 1 900
    (fun _ => rfl) (by decide)
  ⟨h.1, h.2.1⟩

/-- Counterexample to C10 as stated: after the successful
`TransferCoins(1, 2, 100)` on two accounts without history, the store holds a
record whose counterparty is account 2, and `GetWalletInfo(2)` returns nil with
an empty list. -/
theorem wallet_info_counterexample :
    (TransferCoins (Env.ok 5 1) twoAccounts 1 2 100).err = none ∧
      (TransferCoins (Env.ok 5 1) twoAccounts 1 2 100).db.transactions =
        [⟨1, 1, 2, 100, "transfer", 5⟩] ∧
      (GetWalletInfo (Env.ok 9 3) (TransferCoins (Env.ok 5 1) twoAccounts 1 2 100).db 2).err
        = none ∧
      (GetWalletInfo (Env.ok 9 3)
        (TransferCoins (Env.ok 5 1) twoAccounts 1 2 100).db 2).transactions = [] := by
  decide

/-! ## Lemmas on the read methods -/

/-- Without a failing call the loop of `GetInventory` turns every row into an
element of the slice. -/
theorem scanInventory_ok (env : Env) (hok : ∀ s, env.fail s = false)
    (rows : List (String × Int)) :
    ∀ (i : Nat) (acc : List InventoryItem),
      scanInventory env rows i acc =
        (acc ++ rows.map (fun r => (⟨r.1, r.2⟩ : InventoryItem)), none) := by
  induction rows with
  | nil => intro i acc; simp [scanInventory, hok]
  | cons r rest ih =>
    intro i acc
    simp [scanInventory, hok, ih]

/-- Without a failing call `GetInventory` returns the rows of its query. -/
theorem GetInventory_ok (env : Env) (hok : ∀ s, env.fail s = false) (db : DB)
    (employeeID : Int) :
    GetInventory env db employeeID =
      ⟨(inventoryRows db employeeID).map (fun r => (⟨r.1, r.2⟩ : InventoryItem)), none⟩ := by
  simp [GetInventory, hok, scanInventory_ok env hok]

/-- Without a failing call `GetWalletInfo` returns the balance and the rows of
its query. -/
theorem GetWalletInfo_ok (env : Env) (hok : ∀ s, env.fail s = false) (db : DB)
    (employeeID balance : Int) (hb : selectBalance db employeeID = some balance) :
    GetWalletInfo env db employeeID = ⟨balance, walletRows db employeeID, none⟩ := by
  simp [GetWalletInfo, hok, hb, scanRows_ok env hok]

/-! ## C11: the wallet view of the sender -/

/-- C11 (what the code does): for distinct existing accounts without history
and `0 < a ≤ balance(sender)`, after the successful
`TransferCoins(sender, recipient, a)` the response of `GetInfo` for the sender
lists the transfer under `coinHistory.received`, as received from the
recipient, and nothing under `coinHistory.sent`. -/
theorem getInfo_after_transfer (prices : String → Option Int) (env env2 : Env) (db : DB)
    (sender recipient a senderBalance recipientBalance : Int)
    (hne : sender ≠ recipient) (hempty : db.transactions = [])
    (hf : selectBalance db sender = some senderBalance)
    (ht : selectBalance db recipient = some recipientBalance)
    (hpos : 0 < a) (hle : a ≤ senderBalance)
    (hok : ∀ s, env.fail s = false) (hok2 : ∀ s, env2.fail s = false) :
    (TransferCoins env db sender recipient a).err = none ∧
      (GetInfo (sqlRepository prices env2) (TransferCoins env db sender recipient a).db
          (some (.float64 sender))).out =
        .response ⟨200, .info (senderBalance - a)
          (GetInventory env2 (TransferCoins env db sender recipient a).db sender).items
          [⟨recipient, a⟩] []⟩ := by
  have hrun := TransferCoins_ok env db sender recipient a senderBalance recipientBalance
    (fun s _ => hok s) hf hle ht
  have herr : (TransferCoins env db sender recipient a).err = none := by rw [hrun]
  have htx : (TransferCoins env db sender recipient a).db.transactions =
      db.transactions ++ [⟨env.newID, sender, recipient, a, "transfer", env.now⟩] := by
    rw [hrun]; rfl
  have hbal : selectBalance (TransferCoins env db sender recipient a).db sender =
      some (senderBalance - a) := by
    rw [hrun]
    simp only []
    rw [selectBalance_insertTransaction, selectBalance_addBalance, selectBalance_subBalance]
    simp [hne, hf]
  refine ⟨herr, ?_⟩
  have hrows : walletRows (TransferCoins env db sender recipient a).db sender =
      [⟨env.newID, sender, recipient, a, "transfer", env.now⟩] := by
    simp [walletRows, htx, hempty]
  have hw := GetWalletInfo_ok env2 hok2 (TransferCoins env db sender recipient a).db sender
    (senderBalance - a) hbal
  have hinv := GetInventory_ok env2 hok2 (TransferCoins env db sender recipient a).db sender
  simp only [GetInfo, sqlRepository, hw, hrows, splitHistory, hpos, gt_iff_lt, if_true,
    List.nil_append, hinv]

/-- Evaluation for C11: account 1 sends 100 coins to account 2 and then asks
for its wallet; the entry appears under `received`, from user 2. -/
theorem getInfo_after_transfer_witness :
    (TransferCoins (Env.ok 5 1) twoAccounts 1 2 100).err = none ∧
      (GetInfo (sqlRepository testPrices (Env.ok 9 3))
          (TransferCoins (Env.ok 5 1) twoAccounts 1 2 100).db (some (.float64 1))).out =
        .response ⟨200, .info (1000 - 100)
          (GetInventory (Env.ok 9 3) (TransferCoins (Env.ok 5 1) twoAccounts 1 2 100).db 1).items
          [⟨2, 100⟩] []⟩ :=
  getInfo_after_transfer testPrices (Env.ok 5 1) (Env.ok 9 3) twoAccounts 1 2 100 1000 1000
    (by decide) rfl (by decide) (by decide) (by decide) (by decide) (fun _ => rfl) (fun _ => rfl)

/-! ## C12: the inventory -/

/-- C12: when no read fails, `GetInventory(account)` returns nil and a list
with exactly one entry per item name that occurs in the purchase records of the
account, whose quantity is the sum of the quantities of those records; records
of other accounts contribute nothing.  So after a successful
`BuyMerch(account, item, 1)` for an item that costs 80, on an account with 1000
coins and no purchases, the balance is 920 and the inventory is the one entry
`(item, 1)`. -/
theorem inventory_aggregation (env : Env) (db : DB) (account : Int)
    (hok : ∀ s, env.fail s = false) :
    (GetInventory env db account).err = none ∧
      ((GetInventory env db account).items.map (fun i => i.type)).Nodup ∧
      (∀ name, name ∈ (GetInventory env db account).items.map (fun i => i.type) ↔
        ∃ p ∈ db.purchases, p.EmployeeID = account ∧ p.MerchName = name) ∧
      (∀ item ∈ (GetInventory env db account).items,
        item.quantity =
          ((db.purchases.filter (fun p =>
            decide (p.EmployeeID = account ∧ p.MerchName = item.type))).map
              (fun p => p.Quantity)).sum) ∧
      (∀ (prices : String → Option Int) (env1 : Env) (item : String),
        (∀ s, env1.fail s = false) → prices item = some 80 →
        selectBalance db account = some 1000 →
        (∀ p ∈ db.purchases, p.EmployeeID ≠ account) →
        (BuyMerch prices env1 db account item 1).err = none ∧
          selectBalance (BuyMerch prices env1 db account item 1).db account = some 920 ∧
          GetInventory env (BuyMerch prices env1 db account item 1).db account =
            ⟨[⟨item, 1⟩], none⟩) := by
  rw [GetInventory_ok env hok db account]
  have hnames : ((inventoryRows db account).map
      (fun r => (⟨r.1, r.2⟩ : InventoryItem))).map (fun i => i.type) =
      ((purchasesOf db account).map (fun p => p.MerchName)).dedup := by
    simp only [inventoryRows, List.map_map]
    conv_rhs => rw [← List.map_id ((purchasesOf db account).map (fun p => p.MerchName)).dedup]
    apply List.map_congr_left
    intro name _
    rfl
  refine ⟨rfl, ?_, ?_, ?_, ?_⟩
  · simp only [hnames]
    exact List.nodup_dedup _
  · intro name
    simp only [hnames, List.mem_dedup, List.mem_map, purchasesOf, List.mem_filter,
      decide_eq_true_eq]
    constructor
    · rintro ⟨p, ⟨hp, hacc⟩, hname⟩
      exact ⟨p, hp, hacc, hname⟩
    · rintro ⟨p, hp, hacc, hname⟩
      exact ⟨p, ⟨hp, hacc⟩, hname⟩
  · intro item hitem
    simp only [inventoryRows, List.map_map, List.mem_map, Function.comp] at hitem
    obtain ⟨name, _, rfl⟩ := hitem
    simp only [purchasesOf, List.filter_filter]
    congr 2
    apply List.filter_congr
    intro p _
    by_cases h1 : p.EmployeeID = account <;> by_cases h2 : p.MerchName = name <;> simp [h1, h2]
  · intro prices env1 item hok1 hprice hbal hnone
    have hgo : goMul 80 1 = 80 := by decide
    have hbuy := BuyMerch_ok prices env1 db account item 1 80 1000 (fun s _ => hok1 s) hprice hbal
      (by rw [hgo]; decide)
    have hmine : purchasesOf db account = [] := by
      simp only [purchasesOf, List.filter_eq_nil_iff, decide_eq_true_eq]
      exact hnone
    rw [hbuy, hgo]
    refine ⟨rfl, ?_, ?_⟩
    · rw [selectBalance_insertPurchase, selectBalance_subBalance]
      simp [hbal]
    · rw [GetInventory_ok env hok]
      have hp : purchasesOf (insertPurchase (subBalance db 80 account) env1.newID account item
          80 1 env1.now) account = [⟨env1.newID, account, item, 80, 1, env1.now⟩] := by
        have := hmine
        simp only [purchasesOf] at this
        simp [purchasesOf, insertPurchase, subBalance, List.filter_append, this]
      simp [inventoryRows, hp]

/-- Witness for C12: three purchases of account 1 and one of account 2, and
the scenario of the single t-shirt. -/
theorem inventory_aggregation_witness :
    GetInventory (Env.ok 9 3)
        ⟨[⟨1, "alice", 1000, 0⟩, ⟨2, "bob", 1000, 0⟩],
          [⟨1, 1, "t-shirt", 80, 2, 1⟩, ⟨2, 2, "t-shirt", 80, 7, 2⟩, ⟨3, 1, "pen", 10, 5, 3⟩,
            ⟨4, 1, "t-shirt", 80, 1, 4⟩], []⟩ 1 =
        ⟨[⟨"pen", 5⟩, ⟨"t-shirt", 3⟩], none⟩ ∧
      (GetInventory (Env.ok 9 3)
        ⟨[⟨1, "alice", 1000, 0⟩, ⟨2, "bob", 1000, 0⟩],
          [⟨1, 1, "t-shirt", 80, 2, 1⟩, ⟨2, 2, "t-shirt", 80, 7, 2⟩, ⟨3, 1, "pen", 10, 5, 3⟩,
            ⟨4, 1, "t-shirt", 80, 1, 4⟩], []⟩ 1).err = none ∧
      selectBalance (BuyMerch testPrices (Env.ok 5 1) twoAccounts 1 "t-shirt" 1).db 1 =
        some 920 ∧
      GetInventory (Env.ok 9 3) (BuyMerch testPrices (Env.ok 5 1) twoAccounts 1 "t-shirt" 1).db 1 =
        ⟨[⟨"t-shirt", 1⟩], none⟩ :=
  ⟨by decide,
    (inventory_aggregation (Env.ok 9 3)
      ⟨[⟨1, "alice", 1000, 0⟩, ⟨2, "bob", 1000, 0⟩],
        [⟨1, 1, "t-shirt", 80, 2, 1⟩, ⟨2, 2, "t-shirt", 80, 7, 2⟩, ⟨3, 1, "pen", 10, 5, 3⟩,
          ⟨4, 1, "t-shirt", 80, 1, 4⟩], []⟩ 1 (fun _ => rfl)).1,
    ((inventory_aggregation (Env.ok 9 3) twoAccounts 1 (fun _ => rfl)).2.2.2.2
      testPrices (Env.ok 5 1) "t-shirt" (fun _ => rfl) (by decide) (by decide)
      (by decide)).2.1,
    ((inventory_aggregation (Env.ok 9 3) twoAccounts 1 (fun _ => rfl)).2.2.2.2
      testPrices (Env.ok 5 1) "t-shirt" (fun _ => rfl) (by decide) (by decide)
      (by decide)).2.2⟩

/-! ## C13: errors of `GetWalletInfo` -/

/-- When the row loop of `GetWalletInfo` returns an error, it returns a nil
slice. -/
theorem scanRows_err_nil (env : Env) (rows : List Transaction) :
    ∀ (i : Nat) (acc : List Transaction),
      (scanRows env rows i acc).2 ≠ none → (scanRows env rows i acc).1 = [] := by
  induction rows with
  | nil => intro i acc h; simp [scanRows] at h
  | cons t rest ih =>
    intro i acc h
    simp only [scanRows] at h ⊢
    split_ifs at h ⊢ with h1 h2
    · simp at h
    · rfl
    · exact ih (i + 1) (acc ++ [t]) h

/-- When no `rows.Next()` fails, the row loop returns either all rows with a
nil error, which it does exactly when no `Scan` of a row fails, or an error. -/
theorem scanRows_no_next (env : Env) (hnext : ∀ j, env.fail (.next j) = false)
    (rows : List Transaction) :
    ∀ (i : Nat) (acc : List Transaction),
      ((∀ k, k < rows.length → env.fail (.scan (i + k)) = false) →
          scanRows env rows i acc = (acc ++ rows, none)) ∧
        ((∃ k, k < rows.length ∧ env.fail (.scan (i + k)) = true) →
          (scanRows env rows i acc).2 ≠ none) := by
  induction rows with
  | nil =>
    intro i acc
    refine ⟨fun _ => by simp [scanRows], ?_⟩
    rintro ⟨k, hk, _⟩
    simp at hk
  | cons t rest ih =>
    intro i acc
    constructor
    · intro hscan
      have h0 : env.fail (.scan i) = false := by simpa using hscan 0 (by simp)
      have hrest : ∀ k, k < rest.length → env.fail (.scan (i + 1 + k)) = false := by
        intro k hk
        have := hscan (k + 1) (by simp; omega)
        rwa [show i + (k + 1) = i + 1 + k by omega] at this
      simp [scanRows, hnext, h0, (ih (i + 1) (acc ++ [t])).1 hrest]
    · rintro ⟨k, hk, hfail⟩
      simp only [scanRows, hnext, Bool.false_eq_true, if_false]
      by_cases h0 : env.fail (.scan i) = true
      · simp [h0]
      · simp only [h0, if_false]
        apply (ih (i + 1) (acc ++ [t])).2
        cases k with
        | zero => exact absurd hfail h0
        | succ k =>
          refine ⟨k, by simpa using hk, ?_⟩
          rwa [show i + 1 + k = i + (k + 1) by omega]

/-- C13 (as amended): whenever `GetWalletInfo` returns an error it returns a
nil transaction list, never a part of one.  When the balance query fails the
balance returned is 0; when the transaction query or the `Scan` of a row fails
the error comes with the balance already read.  When none of these calls fails
and the row iteration runs to its end, the error is nil and the list is the
complete result of the query. -/
theorem wallet_error_no_list (env : Env) (db : DB) (employeeID : Int) :
    ((GetWalletInfo env db employeeID).err ≠ none →
        (GetWalletInfo env db employeeID).transactions = []) ∧
      (env.fail .walletBalance = true →
        GetWalletInfo env db employeeID = ⟨0, [], some (.storage .walletBalance)⟩) ∧
      (∀ balance : Int, env.fail .walletBalance = false →
        selectBalance db employeeID = some balance →
        (env.fail .walletQuery = true →
          GetWalletInfo env db employeeID = ⟨balance, [], some (.storage .walletQuery)⟩) ∧
        (env.fail .walletQuery = false → (∀ j, env.fail (.next j) = false) →
          ((∃ k, k < (walletRows db employeeID).length ∧ env.fail (.scan k) = true) →
            (GetWalletInfo env db employeeID).err ≠ none ∧
              (GetWalletInfo env db employeeID).transactions = [] ∧
              (GetWalletInfo env db employeeID).balance = balance) ∧
          ((∀ k, k < (walletRows db employeeID).length → env.fail (.scan k) = false) →
            GetWalletInfo env db employeeID =
              ⟨balance, walletRows db employeeID, none⟩))) := by
  refine ⟨?_, ?_, ?_⟩
  · intro herr
    unfold GetWalletInfo at herr ⊢
    rcases hb : selectBalance db employeeID with _ | balance
    · simp only [hb] at herr ⊢
      split_ifs <;> rfl
    · simp only [hb] at herr ⊢
      split_ifs at herr ⊢ with h1 h2
      · rfl
      · rfl
      · exact scanRows_err_nil env _ 0 [] herr
  · intro h
    simp [GetWalletInfo, h]
  · intro balance hwb hb
    refine ⟨fun hq => by simp [GetWalletInfo, hwb, hb, hq], ?_⟩
    intro hq hnext
    have hloop := scanRows_no_next env hnext (walletRows db employeeID) 0 []
    simp only [Nat.zero_add, List.nil_append] at hloop
    constructor
    · intro hfail
      have herr := hloop.2 hfail
      have hnil := scanRows_err_nil env _ 0 [] herr
      simp only [GetWalletInfo, hwb, hb, hq, Bool.false_eq_true, if_false]
      exact ⟨herr, hnil, trivial⟩
    · intro hscan
      simp [GetWalletInfo, hwb, hb, hq, hloop.1 hscan]

/-- Witness for C13: the wallet of account 1 after one transfer, read with a
failing balance query, a failing transaction query, a failing `Scan`, and
without a failure. -/
theorem wallet_error_no_list_witness :
    GetWalletInfo ⟨fun s => decide (s = .walletBalance), 9, 3⟩
        (TransferCoins (Env.ok 5 1) twoAccounts 1 2 100).db 1 =
        ⟨0, [], some (.storage .walletBalance)⟩ ∧
      GetWalletInfo ⟨fun s => decide (s = .walletQuery), 9, 3⟩
        (TransferCoins (Env.ok 5 1) twoAccounts 1 2 100).db 1 =
        ⟨900, [], some (.storage .walletQuery)⟩ ∧
      (GetWalletInfo ⟨fun s => decide (s = .scan 0), 9, 3⟩
        (TransferCoins (Env.ok 5 1) twoAccounts 1 2 100).db 1).transactions = [] ∧
      GetWalletInfo (Env.ok 9 3) (TransferCoins (Env.ok 5 1) twoAccounts 1 2 100).db 1 =
        ⟨900, [⟨1, 1, 2, 100, "transfer", 5⟩], none⟩ :=
  ⟨(wallet_error_no_list ⟨fun s => decide (s = .walletBalance), 9, 3⟩
      (TransferCoins (Env.ok 5 1) twoAccounts 1 2 100).db 1).2.1 (by decide),
    ((wallet_error_no_list ⟨fun s => decide (s = .walletQuery), 9, 3⟩
      (TransferCoins (Env.ok 5 1) twoAccounts 1 2 100).db 1).2.2 900 (by decide)
      (by decide)).1 (by decide),
    (((wallet_error_no_list ⟨fun s => decide (s = .scan 0), 9, 3⟩
      (TransferCoins (Env.ok 5 1) twoAccounts 1 2 100).db 1).2.2 900 (by decide)
      (by decide)).2 (by decide) (fun _ => rfl)).1 ⟨0, by decide, by decide⟩ |>.2.1,
    (((wallet_error_no_list (Env.ok 9 3)
      (TransferCoins (Env.ok 5 1) twoAccounts 1 2 100).db 1).2.2 900 rfl
      (by decide)).2 rfl (fun _ => rfl)).2 (fun _ _ => rfl)⟩

/-- Counterexample to C13 as stated: with the transaction query failing,
`GetWalletInfo` returns the error together with the balance 900, not 0; and
with the first `rows.Next()` failing it returns a nil error and an empty list
although the query has one row. -/
theorem wallet_error_counterexample :
    GetWalletInfo ⟨fun s => decide (s = .walletQuery), 9, 3⟩
        (TransferCoins (Env.ok 5 1) twoAccounts 1 2 100).db 1 =
        ⟨900, [], some (.storage .walletQuery)⟩ ∧
      walletRows (TransferCoins (Env.ok 5 1) twoAccounts 1 2 100).db 1 =
        [⟨1, 1, 2, 100, "transfer", 5⟩] ∧
      GetWalletInfo ⟨fun s => decide (s = .next 0), 9, 3⟩
        (TransferCoins (Env.ok 5 1) twoAccounts 1 2 100).db 1 = ⟨900, [], none⟩ := by
  decide

/-! ## C14: lookups of accounts that do not exist -/

/-- C14 (what the code does): no lookup ever returns `ErrNotFound`.  When no
storage call fails, `GetEmployeeByID` and `GetWalletInfo` for an id no account
has, and `GetEmployeeByUsername` for a name no account has, return
`sql.ErrNoRows`; for an account that exists (ids being unique) they return the
stored row, or its balance, with a nil error. -/
theorem lookup_absent (env : Env) (db : DB) (hok : ∀ s, env.fail s = false) :
    (∀ id : Int, (∀ e ∈ db.employees, e.ID ≠ id) →
        GetEmployeeByID env db id = ⟨⟨0, "", 0, 0⟩, some .sqlErrNoRows⟩ ∧
          GetWalletInfo env db id = ⟨0, [], some .sqlErrNoRows⟩) ∧
      (∀ name : String, (∀ e ∈ db.employees, e.Username ≠ name) →
        GetEmployeeByUsername env db name = ⟨⟨0, "", 0, 0⟩, some .sqlErrNoRows⟩) ∧
      (∀ (id : Int) (name : String),
        (GetEmployeeByID env db id).err ≠ some .ErrNotFound ∧
          (GetEmployeeByUsername env db name).err ≠ some .ErrNotFound ∧
          (GetWalletInfo env db id).err ≠ some .ErrNotFound) ∧
      (∀ e ∈ db.employees, UniqueIDs db →
        GetEmployeeByID env db e.ID = ⟨e, none⟩ ∧
          (GetWalletInfo env db e.ID).err = none ∧
          (GetWalletInfo env db e.ID).balance = e.CoinBalance) ∧
      (∀ e ∈ db.employees, ∃ e2 ∈ db.employees, e2.Username = e.Username ∧
        GetEmployeeByUsername env db e.Username = ⟨e2, none⟩) := by
  refine ⟨?_, ?_, ?_, ?_, ?_⟩
  · intro id habs
    have hfind : db.employees.find? (fun e => decide (e.ID = id)) = none := by
      simp only [List.find?_eq_none, decide_eq_true_eq]
      exact habs
    have hsel : selectBalance db id = none := by simp [selectBalance, hfind]
    constructor
    · simp [GetEmployeeByID, hok, hfind]
    · simp [GetWalletInfo, hok, hsel]
  · intro name habs
    have hfind : db.employees.find? (fun e => decide (e.Username = name)) = none := by
      simp only [List.find?_eq_none, decide_eq_true_eq]
      exact habs
    simp [GetEmployeeByUsername, hok, hfind]
  · intro id name
    refine ⟨?_, ?_, ?_⟩
    · unfold GetEmployeeByID
      rcases h : db.employees.find? (fun e => decide (e.ID = id)) with _ | e <;> simp [hok, h]
    · unfold GetEmployeeByUsername
      rcases h : db.employees.find? (fun e => decide (e.Username = name)) with _ | e <;>
        simp [hok, h]
    · unfold GetWalletInfo
      rcases h : selectBalance db id with _ | b
      · simp [hok, h]
      · simp [hok, h, scanRows_ok env hok]
  · intro e he hu
    have hsel := selectBalance_of_mem db hu e he
    have hw := GetWalletInfo_ok env hok db e.ID e.CoinBalance hsel
    refine ⟨?_, by rw [hw], by rw [hw]⟩
    unfold GetEmployeeByID
    rcases hfind : db.employees.find? (fun x => decide (x.ID = e.ID)) with _ | x
    · simp only [List.find?_eq_none, decide_eq_true_eq] at hfind
      exact absurd rfl (hfind e he)
    · have hx := List.mem_of_find?_eq_some hfind
      have hid : x.ID = e.ID := by simpa using List.find?_some hfind
      have hxe : x = e := by
        unfold UniqueIDs at hu
        exact List.inj_on_of_nodup_map hu hx he hid
      subst hxe
      simp [hok, hfind]
  · intro e he
    rcases hfind : db.employees.find? (fun x => decide (x.Username = e.Username)) with _ | x
    · simp only [List.find?_eq_none, decide_eq_true_eq] at hfind
      exact absurd rfl (hfind e he)
    · refine ⟨x, List.mem_of_find?_eq_some hfind, by simpa using List.find?_some hfind, ?_⟩
      simp [GetEmployeeByUsername, hok, hfind]

/-- Evaluation for C14: on two accounts with the ids 1 and 2, the lookups of
id 7 and of the name carol return `sql.ErrNoRows`, and the lookup of id 2
returns the row of bob. -/
theorem lookup_absent_witness :
    (GetEmployeeByID (Env.ok 9 3) twoAccounts 7 = ⟨⟨0, "", 0, 0⟩, some .sqlErrNoRows⟩ ∧
        GetWalletInfo (Env.ok 9 3) twoAccounts 7 = ⟨0, [], some .sqlErrNoRows⟩) ∧
      GetEmployeeByUsername (Env.ok 9 3) twoAccounts "carol" =
        ⟨⟨0, "", 0, 0⟩, some .sqlErrNoRows⟩ ∧
      (GetEmployeeByID (Env.ok 9 3) twoAccounts 7).err ≠ some .ErrNotFound ∧
      GetEmployeeByID (Env.ok 9 3) twoAccounts 2 = ⟨⟨2, "bob", 1000, 0⟩, none⟩ :=
  ⟨(lookup_absent (Env.ok 9 3) twoAccounts (fun _ => rfl)).1 7 (by decide),
    (lookup_absent (Env.ok 9 3) twoAccounts (fun _ => rfl)).2.1 "carol" (by decide),
    ((lookup_absent (Env.ok 9 3) twoAccounts (fun _ => rfl)).2.2.1 7 "carol").1,
    ((lookup_absent (Env.ok 9 3) twoAccounts (fun _ => rfl)).2.2.2.1 ⟨2, "bob", 1000, 0⟩
      (by decide) (by decide)).1⟩

/-! ## C18: the transfer to oneself -/

/-- C18 (as amended): `TransferCoins(a, a, amount)` either returns an error
and leaves the store unchanged, or returns nil, leaves every row of
`employees` (the balance of `a` and every other balance) and all purchases
unchanged, and appends the one history record `(a, a, amount, "transfer")`. -/
theorem self_transfer (env : Env) (db : DB) (a amount : Int) :
    ((TransferCoins env db a a amount).err ≠ none ∧ (TransferCoins env db a a amount).db = db) ∨
      ((TransferCoins env db a a amount).err = none ∧
        (TransferCoins env db a a amount).db.employees = db.employees ∧
        (TransferCoins env db a a amount).db.purchases = db.purchases ∧
        (TransferCoins env db a a amount).db.transactions =
          db.transactions ++ [⟨env.newID, a, a, amount, "transfer", env.now⟩]) := by
  rcases TransferCoins_cases env db a a amount with h | ⟨herr, _, _, _, hdb⟩
  · exact Or.inl h
  · right
    rw [hdb]
    refine ⟨herr, ?_, rfl, rfl⟩
    simp only [insertTransaction, addBalance, subBalance, List.map_map]
    conv_rhs => rw [← List.map_id db.employees]
    apply List.map_congr_left
    intro e _
    simp only [Function.comp, id]
    obtain ⟨id, name, balance, created⟩ := e
    by_cases h : id = a
    · simp [h]
    · simp [h]

/-- Counterexample to C18 as stated: `TransferCoins(1, 1, 100)` returns nil,
and the wallet view `GetInfo` then builds for account 1 counts the record as
100 coins received from user 1. -/
theorem self_transfer_counterexample :
    (TransferCoins (Env.ok 5 1) twoAccounts 1 1 100).err = none ∧
      (TransferCoins (Env.ok 5 1) twoAccounts 1 1 100).db.employees = twoAccounts.employees ∧
      (TransferCoins (Env.ok 5 1) twoAccounts 1 1 100).db.transactions =
        [⟨1, 1, 1, 100, "transfer", 5⟩] ∧
      (GetInfo (sqlRepository testPrices (Env.ok 9 3))
          (TransferCoins (Env.ok 5 1) twoAccounts 1 1 100).db (some (.float64 1))).out =
        .response ⟨200, .info 1000 [] [⟨1, 100⟩] []⟩ := by
  decide

/-! ## C15: `SendCoin` and the core -/

/-- The body binds exactly when it decodes, names a recipient and carries a
positive amount. -/
theorem ShouldBindJSON_ok_iff (decoded : Option SendCoinRequest) (req : SendCoinRequest) :
    ShouldBindJSON decoded = .ok req ↔
      decoded = some req ∧ req.ToUser ≠ "" ∧ 0 < req.Amount := by
  unfold ShouldBindJSON validate
  rcases decoded with _ | r
  · simp
  · by_cases h1 : r.ToUser = "" <;> by_cases h2 : r.Amount = 0 <;>
      by_cases h3 : r.Amount > 0 <;> simp [h1, h2, h3]
    all_goals
      intro h
      subst h
      first
        | exact ⟨h1, h3⟩
        | (intro hne; first | exact absurd h1 hne | omega)

/-- A body that decodes, names a recipient and carries a positive amount
binds. -/
theorem ShouldBindJSON_ok (req : SendCoinRequest) (h1 : req.ToUser ≠ "")
    (h2 : 0 < req.Amount) : ShouldBindJSON (some req) = .ok req :=
  (ShouldBindJSON_ok_iff (some req) req).mpr ⟨rfl, h1, h2⟩

/-- C15: for every request and repository, `SendCoin` calls `TransferCoins`
only if the body decodes with `amount > 0` and a non-empty `toUser`, the
context holds a `userID` and `GetEmployeeByUsername(toUser)` returned nil; it
then calls it exactly once, after the lookup and on the state the lookup left,
with the `userID` of the context, the ID of the recipient found and the
amount, and the repository is left in the state that one call produced.  If
the lookup fails the response is 400 with `errors = "recipient not found"`,
`TransferCoins` is not called and the repository is left as the lookup left
it.  The response is 200 `"transfer successful"` exactly when `TransferCoins`
was called and returned nil; when it returned an error the response is 400
with that error.  Without a call of `TransferCoins` the repository is left
untouched or as the lookup left it. -/
theorem sendCoin_reaches_core {σ : Type} (repo : Repository σ) (s : σ) (c : SendCoinContext) :
    (∀ f t a : Int, RepoCall.TransferCoins f t a ∈ (SendCoin repo s c).calls →
        ∃ req, c.body = some req ∧ 0 < req.Amount ∧ req.ToUser ≠ "" ∧
          c.userID = some (.float64 f) ∧
          (repo.GetEmployeeByUsername s req.ToUser).1.err = none ∧
          t = (repo.GetEmployeeByUsername s req.ToUser).1.emp.ID ∧ a = req.Amount ∧
          (SendCoin repo s c).calls =
            [.GetEmployeeByUsername req.ToUser, .TransferCoins f t a] ∧
          (SendCoin repo s c).state =
            (repo.TransferCoins (repo.GetEmployeeByUsername s req.ToUser).2 f t a).2) ∧
      (∀ (req : SendCoinRequest) (f : Int), c.body = some req → 0 < req.Amount →
        req.ToUser ≠ "" → c.userID = some (.float64 f) →
        ((repo.GetEmployeeByUsername s req.ToUser).1.err = none →
          (SendCoin repo s c).calls =
            [.GetEmployeeByUsername req.ToUser,
              .TransferCoins f (repo.GetEmployeeByUsername s req.ToUser).1.emp.ID req.Amount] ∧
          (SendCoin repo s c).state =
            (repo.TransferCoins (repo.GetEmployeeByUsername s req.ToUser).2 f
              (repo.GetEmployeeByUsername s req.ToUser).1.emp.ID req.Amount).2 ∧
          ((SendCoin repo s c).out = .response ⟨200, .message "transfer successful"⟩ ↔
            (repo.TransferCoins (repo.GetEmployeeByUsername s req.ToUser).2 f
              (repo.GetEmployeeByUsername s req.ToUser).1.emp.ID req.Amount).1 = none) ∧
          (∀ err, (repo.TransferCoins (repo.GetEmployeeByUsername s req.ToUser).2 f
              (repo.GetEmployeeByUsername s req.ToUser).1.emp.ID req.Amount).1 = some err →
            (SendCoin repo s c).out = .response ⟨400, .errors (.ofErr err)⟩)) ∧
        ((repo.GetEmployeeByUsername s req.ToUser).1.err ≠ none →
          (SendCoin repo s c).out =
              .response ⟨400, .errors (.literal "recipient not found")⟩ ∧
            (SendCoin repo s c).calls = [.GetEmployeeByUsername req.ToUser] ∧
            (SendCoin repo s c).state = (repo.GetEmployeeByUsername s req.ToUser).2)) ∧
      ((SendCoin repo s c).out = .response ⟨200, .message "transfer successful"⟩ →
        ∃ f t a : Int, RepoCall.TransferCoins f t a ∈ (SendCoin repo s c).calls) ∧
      ((∀ f t a : Int, RepoCall.TransferCoins f t a ∉ (SendCoin repo s c).calls) →
        ((SendCoin repo s c).calls = [] ∧ (SendCoin repo s c).state = s) ∨
          (∃ req, c.body = some req ∧
            (SendCoin repo s c).calls = [.GetEmployeeByUsername req.ToUser] ∧
            (SendCoin repo s c).state = (repo.GetEmployeeByUsername s req.ToUser).2)) := by
  obtain ⟨body, userID⟩ := c
  rcases hbind : ShouldBindJSON body with e | req
  · have hno : ∀ r, ¬ (body = some r ∧ r.ToUser ≠ "" ∧ 0 < r.Amount) := by
      intro r hr
      have := (ShouldBindJSON_ok_iff body r).mpr hr
      rw [hbind] at this
      cases this
    refine ⟨?_, ?_, ?_, ?_⟩
    · intro f t a hmem
      simp [SendCoin, hbind] at hmem
    · intro r f hb hpos hname _
      exact absurd ⟨hb, hname, hpos⟩ (hno r)
    · intro hout
      simp [SendCoin, hbind] at hout
    · intro _
      left
      simp [SendCoin, hbind]
  · obtain ⟨hbody, hname, hpos⟩ := (ShouldBindJSON_ok_iff body req).mp hbind
    subst hbody
    rcases userID with _ | v
    · refine ⟨?_, ?_, ?_, ?_⟩
      · intro f t a hmem
        simp [SendCoin, hbind] at hmem
      · intro r f _ _ _ hctx
        simp at hctx
      · intro hout
        simp [SendCoin, hbind] at hout
      · intro _
        left
        simp [SendCoin, hbind]
    · cases v with
      | nil =>
        refine ⟨?_, ?_, ?_, ?_⟩
        · intro f t a hmem
          simp [SendCoin, hbind] at hmem
        · intro r f _ _ _ hctx
          simp at hctx
        · intro hout
          simp [SendCoin, hbind] at hout
        · intro _
          left
          simp [SendCoin, hbind]
      | other =>
        refine ⟨?_, ?_, ?_, ?_⟩
        · intro f t a hmem
          simp [SendCoin, hbind] at hmem
        · intro r f _ _ _ hctx
          simp at hctx
        · intro hout
          simp [SendCoin, hbind] at hout
        · intro _
          left
          simp [SendCoin, hbind]
      | float64 uid =>
        rcases hlook : (repo.GetEmployeeByUsername s req.ToUser).1.err with _ | lerr
        · rcases htr : (repo.TransferCoins (repo.GetEmployeeByUsername s req.ToUser).2 uid
              (repo.GetEmployeeByUsername s req.ToUser).1.emp.ID req.Amount).1 with _ | terr
          · refine ⟨?_, ?_, ?_, ?_⟩
            · intro f t a hmem
              simp [SendCoin, hbind, hlook, htr] at hmem
              obtain ⟨rfl, rfl, rfl⟩ := hmem
              exact ⟨req, rfl, hpos, hname, rfl, hlook, rfl, rfl,
                by simp [SendCoin, hbind, hlook, htr],
                by simp [SendCoin, hbind, hlook, htr]⟩
            · intro r f hb _ _ hctx
              simp only [Option.some.injEq] at hb
              subst hb
              simp only [Option.some.injEq, CtxValue.float64.injEq] at hctx
              subst hctx
              simp [SendCoin, hbind, hlook, htr]
            · intro _
              exact ⟨uid, (repo.GetEmployeeByUsername s req.ToUser).1.emp.ID, req.Amount,
                by simp [SendCoin, hbind, hlook, htr]⟩
            · intro hnot
              exact absurd (by simp [SendCoin, hbind, hlook, htr])
                (hnot uid (repo.GetEmployeeByUsername s req.ToUser).1.emp.ID req.Amount)
          · refine ⟨?_, ?_, ?_, ?_⟩
            · intro f t a hmem
              simp [SendCoin, hbind, hlook, htr] at hmem
              obtain ⟨rfl, rfl, rfl⟩ := hmem
              exact ⟨req, rfl, hpos, hname, rfl, hlook, rfl, rfl,
                by simp [SendCoin, hbind, hlook, htr],
                by simp [SendCoin, hbind, hlook, htr]⟩
            · intro r f hb _ _ hctx
              simp only [Option.some.injEq] at hb
              subst hb
              simp only [Option.some.injEq, CtxValue.float64.injEq] at hctx
              subst hctx
              simp [SendCoin, hbind, hlook, htr]
            · intro hout
              simp [SendCoin, hbind, hlook, htr] at hout
            · intro hnot
              exact absurd (by simp [SendCoin, hbind, hlook, htr])
                (hnot uid (repo.GetEmployeeByUsername s req.ToUser).1.emp.ID req.Amount)
        · refine ⟨?_, ?_, ?_, ?_⟩
          · intro f t a hmem
            simp [SendCoin, hbind, hlook] at hmem
          · intro r f hb _ _ hctx
            simp only [Option.some.injEq] at hb
            subst hb
            simp only [Option.some.injEq, CtxValue.float64.injEq] at hctx
            subst hctx
            simp [SendCoin, hbind, hlook]
          · intro hout
            simp [SendCoin, hbind, hlook] at hout
          · intro _
            right
            exact ⟨req, rfl, by simp [SendCoin, hbind, hlook], by simp [SendCoin, hbind, hlook]⟩

/-- Witness for C15: account 1 sends 100 coins to bob through the SQL
repository on two accounts of 1000 coins, which leaves 900 and 1100 coins and
one record; and to carol, who does not exist, which leaves the store as it
was. -/
theorem sendCoin_reaches_core_witness :
    ((SendCoin (sqlRepository testPrices (Env.ok 9 3)) twoAccounts
        ⟨some ⟨"bob", 100⟩, some (.float64 1)⟩).calls =
        [.GetEmployeeByUsername "bob", .TransferCoins 1 2 100] ∧
      (SendCoin (sqlRepository testPrices (Env.ok 9 3)) twoAccounts
        ⟨some ⟨"bob", 100⟩, some (.float64 1)⟩).state =
        ⟨[⟨1, "alice", 900, 0⟩, ⟨2, "bob", 1100, 0⟩], [], [⟨3, 1, 2, 100, "transfer", 9⟩]⟩ ∧
      (SendCoin (sqlRepository testPrices (Env.ok 9 3)) twoAccounts
        ⟨some ⟨"bob", 100⟩, some (.float64 1)⟩).out =
        .response ⟨200, .message "transfer successful"⟩) ∧
      ((SendCoin (sqlRepository testPrices (Env.ok 9 3)) twoAccounts
        ⟨some ⟨"carol", 100⟩, some (.float64 1)⟩).out =
          .response ⟨400, .errors (.literal "recipient not found")⟩ ∧
        (SendCoin (sqlRepository testPrices (Env.ok 9 3)) twoAccounts
          ⟨some ⟨"carol", 100⟩, some (.float64 1)⟩).calls = [.GetEmployeeByUsername "carol"] ∧
        (SendCoin (sqlRepository testPrices (Env.ok 9 3)) twoAccounts
          ⟨some ⟨"carol", 100⟩, some (.float64 1)⟩).state = twoAccounts) :=
  have hbob := ((sendCoin_reaches_core (sqlRepository testPrices (Env.ok 9 3)) twoAccounts
    ⟨some ⟨"bob", 100⟩, some (.float64 1)⟩).2.1 ⟨"bob", 100⟩ 1 rfl (by decide) (by decide)
    rfl).1 (by decide)
  have hcarol := ((sendCoin_reaches_core (sqlRepository testPrices (Env.ok 9 3)) twoAccounts
    ⟨some ⟨"carol", 100⟩, some (.float64 1)⟩).2.1 ⟨"carol", 100⟩ 1 rfl (by decide) (by decide)
    rfl).2 (by decide)
  ⟨⟨hbob.1, hbob.2.1.trans (by decide), hbob.2.2.1.mpr (by decide)⟩, hcarol⟩

/-! ## C16: the JWT middleware -/

/-- C16: an empty `Authorization` header gets 401 with `"Authorization header
is missing"`; otherwise a header that `strings.Split` on the space does not
cut into exactly two parts with `"Bearer"` first gets 401 with
`"Authorization header format must be Bearer {token}"`; otherwise a token for
which `jwt.Parse` returns an error or a token that is not valid gets 401 with
`"Invalid token"`.  In all three cases the request is aborted, `c.Next()` is
not called and `userID` is not set. -/
theorem jwt_rejects (jwtParse : String → String → Parsed) (secret authHeader : String) :
    (authHeader = "" →
        JWTAuthMiddleware jwtParse secret authHeader =
          ⟨some ⟨401, .error "Authorization header is missing"⟩, none, false⟩) ∧
      (authHeader ≠ "" →
        ((stringsSplit authHeader).length ≠ 2 ∨
          (stringsSplit authHeader)[0]? ≠ some "Bearer") →
        JWTAuthMiddleware jwtParse secret authHeader =
          ⟨some ⟨401, .error "Authorization header format must be Bearer \x7btoken\x7d"⟩,
            none, false⟩) ∧
      (authHeader ≠ "" → ∀ tokenStr : String,
        stringsSplit authHeader = ["Bearer", tokenStr] →
        ((jwtParse tokenStr secret).err = true ∨ (jwtParse tokenStr secret).valid = false) →
        JWTAuthMiddleware jwtParse secret authHeader =
          ⟨some ⟨401, .error "Invalid token"⟩, none, false⟩) := by
  refine ⟨?_, ?_, ?_⟩
  · intro h
    simp [JWTAuthMiddleware, h]
  · intro h hparts
    simp only [JWTAuthMiddleware, h, if_false]
    rw [if_pos hparts]
  · intro h tokenStr hsplit hbad
    have hparts : ¬ ((stringsSplit authHeader).length ≠ 2 ∨
        (stringsSplit authHeader)[0]? ≠ some "Bearer") := by
      rw [hsplit]; simp
    simp only [JWTAuthMiddleware, h, if_false]
    rw [if_neg hparts]
    have htok : (stringsSplit authHeader).getD 1 "" = tokenStr := by rw [hsplit]; rfl
    simp only [htok]
    rcases hbad with hb | hb <;> simp [hb]

/-- Witness for C16: the three requests of the tests of the middleware, with
a parser that rejects every token. -/
theorem jwt_rejects_witness :
    JWTAuthMiddleware (fun _ _ => ⟨true, false, none⟩) "mysecret" "" =
        ⟨some ⟨401, .error "Authorization header is missing"⟩, none, false⟩ ∧
      JWTAuthMiddleware (fun _ _ => ⟨true, false, none⟩) "mysecret" "InvalidToken" =
        ⟨some ⟨401, .error "Authorization header format must be Bearer \x7btoken\x7d"⟩,
          none, false⟩ ∧
      JWTAuthMiddleware (fun _ _ => ⟨true, false, none⟩) "mysecret" "Bearer invalidtoken" =
        ⟨some ⟨401, .error "Invalid token"⟩, none, false⟩ :=
  ⟨(jwt_rejects (fun _ _ => ⟨true, false, none⟩) "mysecret" "").1 rfl,
    (jwt_rejects (fun _ _ => ⟨true, false, none⟩) "mysecret" "InvalidToken").2.1 (by decide)
      (by decide),
    (jwt_rejects (fun _ _ => ⟨true, false, none⟩) "mysecret" "Bearer invalidtoken").2.2
      (by decide) "invalidtoken" (by decide) (Or.inl rfl)⟩

end MerchStore
